import Mathlib

/-!
Shallow embedding of `api/ideas.ts` (Vercel serverless function): request
validation, generator-output shape checking, text sanitization
(`sanitizeText`), field clamping (`clampIdea`), near-duplicate title
suffixing (`isTooSimilar` / `ensureDistinct`), and the HTTP handler's
status/body behaviour.

Modelling conventions:
* JavaScript runtime values that flow through the handler (the parsed request
  body, the parsed generator output, ideas, insights, …) are modelled by the
  dynamic value type `JSVal`.  JavaScript numbers are modelled as exact
  rationals (`ℚ`); `NaN`/`±Infinity`, which arise only transiently from
  `Number(...)` coercion (never from `JSON.parse`), are modelled by the
  coercion result type `NumV`.
* `String.prototype.slice(0, n)` is modelled as taking the first `n`
  characters (`strTake`); JavaScript counts UTF-16 units, Lean counts code
  points — these agree on all Basic Multilingual Plane text.
* Property assignment `o.k = v` on a non-object is modelled as a no-op
  (sloppy-mode semantics); assignment on `null`/`undefined`, which throws in
  every mode, is modelled by `Option` (`none` = exception, caught by the
  handler's `try/catch` into a 500).  The one other throwing operation the
  handler can reach, `String.prototype.replace` applied via
  `ins.validation.map(sanitizeText)` / `ins.risks.map(sanitizeText)` to a
  truthy non-string element, is likewise modelled by `Option`.
* `JSON.parse` of the generator's raw text is a platform primitive; the
  generator's output is modelled as the pair of its raw text and that text's
  parse result (`GenOut`), exactly the two views the handler consumes.
-/

/-- A JavaScript runtime value, as produced by `JSON.parse` plus `undefined`.
Numbers are exact rationals (see the header note on floats). -/
inductive JSVal where
  | vUndef
  | vNull
  | vBool (b : Bool)
  | vNum (q : ℚ)
  | vStr (s : String)
  | vArr (elems : List JSVal)
  | vObj (fields : List (String × JSVal))
deriving Inhabited

/-- JavaScript truthiness (`Boolean(v)`).  `NaN` never occurs as a stored
`JSVal` (it cannot come out of `JSON.parse`), so `vNum` is falsy iff `0`. -/
def jsTruthy : JSVal → Bool
  | .vUndef => false
  | .vNull => false
  | .vBool b => b
  | .vNum q => q != 0
  | .vStr s => s != ""
  | .vArr _ => true
  | .vObj _ => true

/-- Loose equality with null (`v == null`): true exactly for `null` and
`undefined`. -/
def looseNull : JSVal → Bool
  | .vUndef => true
  | .vNull => true
  | _ => false

/-- Property read `o[k]` / `o?.[k]` for a string key: assoc-list lookup on
objects, `undefined` on everything else (the string/array built-in properties
are never consulted by the keys this code reads). -/
def getField (v : JSVal) (k : String) : JSVal :=
  match v with
  | .vObj fs =>
    match fs.lookup k with
    | some w => w
    | none => .vUndef
  | _ => JSVal.vUndef

/-- Whether an object carries the key at all (distinguishes a missing field
from one explicitly set to `undefined`). -/
def hasKey (v : JSVal) (k : String) : Bool :=
  match v with
  | .vObj fs => fs.any (fun p => p.1 == k)
  | _ => false

/-- Assoc-list update preserving key insertion order — JavaScript object key
semantics: overwrite the (first, and in a `JSON.parse` result only) existing
binding in place, or append a new key at the end. -/
def setAssoc : List (String × JSVal) → String → JSVal → List (String × JSVal)
  | [], k, v => [(k, v)]
  | (a, b) :: t, k, v =>
    if a == k then (k, v) :: t else (a, b) :: setAssoc t k v

/-- Property assignment `o.k = v`.  On a non-object this is a no-op: in
sloppy mode JavaScript silently ignores assignments to primitives, and for
arrays the handler's response serialization (`JSON.stringify`) drops any named
property anyway, so the no-op gives the serialized result directly.
Assignment on `null`/`undefined` (which throws in every mode) is handled
separately by the callers that can reach it (`clampIdea`). -/
def setField (v : JSVal) (k : String) (w : JSVal) : JSVal :=
  match v with
  | .vObj fs => .vObj (setAssoc fs k w)
  | o => o

/-- Array index read `a?.[i]` for a numeric literal index: list index on
arrays, string-key lookup on objects (JS converts the index to a key),
`undefined` otherwise (including out-of-range and character indexing into
strings, whose result the callers immediately reduce to `undefined` by
reading a named property off it). -/
def idx (v : JSVal) (i : Nat) : JSVal :=
  match v with
  | .vArr xs => xs.getD i .vUndef
  | .vObj fs =>
    match fs.lookup (toString i) with
    | some w => w
    | none => .vUndef
  | _ => JSVal.vUndef

/-! ### Character classes and low-level string helpers -/

/-- JavaScript regexp `\s` (and the `trim` whitespace set): space, tab,
LF, VT, FF, CR, NBSP, and the Unicode space separators / line terminators /
BOM. -/
def isJsWs (c : Char) : Bool :=
  let n := c.toNat
  n == 0x20 || (0x9 ≤ n && n ≤ 0xD) || n == 0xA0 || n == 0x1680 ||
  (0x2000 ≤ n && n ≤ 0x200A) || n == 0x2028 || n == 0x2029 ||
  n == 0x202F || n == 0x205F || n == 0x3000 || n == 0xFEFF

/-- JavaScript regexp `\w` without the `u` flag: `[A-Za-z0-9_]`. -/
def isWordChar (c : Char) : Bool :=
  ('a' ≤ c && c ≤ 'z') || ('A' ≤ c && c ≤ 'Z') || ('0' ≤ c && c ≤ '9') || c == '_'

/-- ASCII lowercase of one character.  The code's case-insensitive matching
(`/…/gi` without `u`) and `toLowerCase()` before `\W`-tokenization only ever
distinguish ASCII letters (non-ASCII letters are `\W` and never part of a
pattern), so ASCII folding is exact here. -/
def asciiLower (c : Char) : Char :=
  if 'A' ≤ c && c ≤ 'Z' then Char.ofNat (c.toNat + 32) else c

/-- The regexp class `[\p{Extended_Pictographic}\p{Emoji_Presentation}]`:
the Unicode `Extended_Pictographic` code-point ranges of UTS #51 emoji-data,
together with the only `Emoji_Presentation` code points that are not
`Extended_Pictographic` — the regional-indicator (flag) letters
U+1F1E6–U+1F1FF and the skin-tone modifiers U+1F3FB–U+1F3FF (every other
`Emoji_Presentation` code point lies in an `Extended_Pictographic` range
below). -/
def emojiRanges : List (Nat × Nat) :=
  [(0xA9, 0xA9), (0xAE, 0xAE), (0x203C, 0x203C), (0x2049, 0x2049),
   (0x2122, 0x2122), (0x2139, 0x2139), (0x2194, 0x2199), (0x21A9, 0x21AA),
   (0x231A, 0x231B), (0x2328, 0x2328), (0x2388, 0x2388), (0x23CF, 0x23CF),
   (0x23E9, 0x23F3), (0x23F8, 0x23FA), (0x24C2, 0x24C2), (0x25AA, 0x25AB),
   (0x25B6, 0x25B6), (0x25C0, 0x25C0), (0x25FB, 0x25FE), (0x2600, 0x2605),
   (0x2607, 0x2612), (0x2614, 0x2685), (0x2690, 0x2705), (0x2708, 0x2712),
   (0x2714, 0x2714), (0x2716, 0x2716), (0x271D, 0x271D), (0x2721, 0x2721),
   (0x2728, 0x2728), (0x2733, 0x2734), (0x2744, 0x2744), (0x2747, 0x2747),
   (0x274C, 0x274C), (0x274E, 0x274E), (0x2753, 0x2755), (0x2757, 0x2757),
   (0x2763, 0x2767), (0x2795, 0x2797), (0x27A1, 0x27A1), (0x27B0, 0x27B0),
   (0x27BF, 0x27BF), (0x2934, 0x2935), (0x2B05, 0x2B07), (0x2B1B, 0x2B1C),
   (0x2B50, 0x2B50), (0x2B55, 0x2B55), (0x3030, 0x3030), (0x303D, 0x303D),
   (0x3297, 0x3297), (0x3299, 0x3299), (0x1F000, 0x1F0FF), (0x1F10D, 0x1F10F),
   (0x1F12F, 0x1F12F), (0x1F16C, 0x1F171), (0x1F17E, 0x1F17F),
   (0x1F18E, 0x1F18E), (0x1F191, 0x1F19A), (0x1F1AD, 0x1F1E5),
   (0x1F1E6, 0x1F1FF),
   (0x1F201, 0x1F20F), (0x1F21A, 0x1F21A), (0x1F22F, 0x1F22F),
   (0x1F232, 0x1F23A), (0x1F23C, 0x1F23F), (0x1F249, 0x1F3FA),
   (0x1F3FB, 0x1F3FF),
   (0x1F400, 0x1F53D), (0x1F546, 0x1F64F), (0x1F680, 0x1F6FF),
   (0x1F774, 0x1F77F), (0x1F7D5, 0x1F7FF), (0x1F80C, 0x1F80F),
   (0x1F848, 0x1F84F), (0x1F85A, 0x1F85F), (0x1F888, 0x1F88F),
   (0x1F8AE, 0x1F8FF), (0x1F90C, 0x1F93A), (0x1F93C, 0x1F945),
   (0x1F947, 0x1FAFF), (0x1FC00, 0x1FFFD)]

/-- Membership in the pictographic/emoji class removed by `sanitizeText`. -/
def isEmojiChar (c : Char) : Bool :=
  emojiRanges.any (fun r => r.1 ≤ c.toNat && c.toNat ≤ r.2)

/-- `s.slice(0, n)`: the first `n` characters. -/
def strTake (s : String) (n : Nat) : String := String.mk (s.data.take n)

/-- One step of `s.replace(/\s+/g, " ")`: each maximal whitespace run
becomes a single space (emitted at the end of the run). -/
def collapseWs : List Char → List Char
  | [] => []
  | [c] => if isJsWs c then [' '] else [c]
  | c :: d :: rest =>
    if isJsWs c && isJsWs d then collapseWs (d :: rest)
    else (if isJsWs c then ' ' else c) :: collapseWs (d :: rest)

/-- `trim()`: strip leading and trailing JavaScript whitespace. -/
def trimWs (cs : List Char) : List Char :=
  ((cs.dropWhile isJsWs).reverse.dropWhile isJsWs).reverse

/-- Helper for `wordRuns`: returns the word-character run starting at the
head of the list (possibly empty) together with the later runs. -/
def runsAux : List Char → List Char × List (List Char)
  | [] => ([], [])
  | c :: rest =>
    let p := runsAux rest
    if isWordChar c then (c :: p.1, p.2)
    else ([], if p.1.isEmpty then p.2 else p.1 :: p.2)

/-- Maximal runs of word characters (`split(/\W+/).filter(Boolean)`). -/
def wordRuns (cs : List Char) : List (List Char) :=
  let p := runsAux cs
  if p.1.isEmpty then p.2 else p.1 :: p.2

/-! ### Numeric coercion (`Number(...)`, `toString`, `toFixed`, `Math.round`) -/

/-- Result of the JavaScript `Number(...)` coercion: `NaN`, a signed
infinity, or a finite value (exact rational). -/
inductive NumV where
  | nan
  | inf (pos : Bool)
  | fin (q : ℚ)
deriving Inhabited

def isDigitCh (c : Char) : Bool := 48 ≤ c.toNat && c.toNat ≤ 57

def digitsToNat (ds : List Char) : Nat :=
  ds.foldl (fun a c => a * 10 + (c.toNat - '0'.toNat)) 0

/-- Optional exponent suffix of a decimal numeric literal; `none` on junk. -/
def parseExpPart (cs : List Char) (base : ℚ) : Option ℚ :=
  match cs with
  | [] => some base
  | e :: r =>
    if e == 'e' || e == 'E' then
      let sr : Bool × List Char :=
        match r with
        | '+' :: t => (true, t)
        | '-' :: t => (false, t)
        | t => (true, t)
      let ds := sr.2.takeWhile isDigitCh
      if ds.isEmpty || !(sr.2.dropWhile isDigitCh).isEmpty then none
      else
        let e : ℤ := if sr.1 then (digitsToNat ds : ℤ) else -(digitsToNat ds : ℤ)
        some (base * (10 : ℚ) ^ e)
    else none

/-- Unsigned decimal numeric literal: `ddd`, `ddd.ddd`, `.ddd`, `ddd.`,
each with optional exponent; the whole list must be consumed. -/
def parseDec (cs : List Char) : Option ℚ :=
  let ip := cs.takeWhile isDigitCh
  match cs.dropWhile isDigitCh with
  | [] => if ip.isEmpty then none else some ((digitsToNat ip : ℚ))
  | '.' :: r2 =>
    let fp := r2.takeWhile isDigitCh
    if ip.isEmpty && fp.isEmpty then none
    else
      parseExpPart (r2.dropWhile isDigitCh)
        ((digitsToNat ip : ℚ) + (digitsToNat fp : ℚ) / (10 : ℚ) ^ fp.length)
  | r1 => if ip.isEmpty then none else parseExpPart r1 ((digitsToNat ip : ℚ))

def hexDigitVal (c : Char) : Option Nat :=
  let n := c.toNat
  if 48 ≤ n ∧ n ≤ 57 then some (n - 48)
  else if 97 ≤ n ∧ n ≤ 102 then some (n - 87)
  else if 65 ≤ n ∧ n ≤ 70 then some (n - 55)
  else none

/-- Digits of a non-decimal (`0x`/`0o`/`0b`) literal; `none` if empty or any
digit is out of range for the radix. -/
def parseRadix (radix : Nat) (cs : List Char) : Option ℚ :=
  if cs.isEmpty then none
  else
    cs.foldl
      (fun acc c =>
        match acc, hexDigitVal c with
        | some a, some d => if d < radix then some (a * radix + d) else none
        | _, _ => none)
      (some 0) |>.map (fun n => (n : ℚ))

/-- Signed decimal-or-Infinity branch of `Number(string)`. -/
def signedDec (cs : List Char) : NumV :=
  let sb : Bool × List Char :=
    match cs with
    | '+' :: t => (true, t)
    | '-' :: t => (false, t)
    | t => (true, t)
  if sb.2 == "Infinity".data then .inf sb.1
  else
    match parseDec sb.2 with
    | some q => .fin (if sb.1 then q else -q)
    | none => .nan

/-- `Number(string)`: trim whitespace; empty means `0`; then a radix-marked
(`0x`/`0o`/`0b`, no sign) or signed decimal/`Infinity` literal; anything
else is `NaN`. -/
def strToNumber (s : String) : NumV :=
  match trimWs s.data with
  | [] => .fin 0
  | '0' :: x :: rest =>
    if x == 'x' || x == 'X' then ((parseRadix 16 rest).map .fin).getD .nan
    else if x == 'o' || x == 'O' then ((parseRadix 8 rest).map .fin).getD .nan
    else if x == 'b' || x == 'B' then ((parseRadix 2 rest).map .fin).getD .nan
    else signedDec ('0' :: x :: rest)
  | cs => signedDec cs

/-- Least `k ≤ 40` with `d ∣ 10^k`, for exact decimal printing. -/
def pow10Exp (d : Nat) : Option Nat :=
  (List.range 41).find? (fun k => 10 ^ k % d == 0)

/-- JavaScript number-to-string for the exact-rational model: integers print
as decimal integers, terminating fractions as exact decimals.  (JavaScript
prints the shortest digit string that round-trips the underlying float and
switches to exponent form beyond `1e21`; these agree on the short decimal
values this code manipulates.)  A non-terminating rational cannot arise from
JSON input, so the fallback arm is unreachable in the handler. -/
def ratToString (q : ℚ) : String :=
  if q.den = 1 then toString q.num
  else
    match pow10Exp q.den with
    | some k =>
      let m := (q * (10 : ℚ) ^ k).num
      let a := m.natAbs
      let fs := toString (a % 10 ^ k)
      (if m < 0 then "-" else "") ++ toString (a / 10 ^ k) ++ "." ++
        String.mk (List.replicate (k - fs.length) '0') ++ fs
    | none => toString q.num ++ "/" ++ toString q.den

/-- `String(v)` up to a given structural-size fuel (`sizeOf v` always
suffices; the `0` arm is unreachable).  Arrays join their elements with `","`
with `null`/`undefined` elements printing as empty. -/
def jsToStringFuel : Nat → JSVal → String
  | 0, _ => ""
  | f + 1, v =>
    match v with
    | .vUndef => "undefined"
    | .vNull => "null"
    | .vBool b => if b then "true" else "false"
    | .vNum q => ratToString q
    | .vStr s => s
    | .vArr xs =>
      String.intercalate "," (xs.map (fun x =>
        match x with
        | .vUndef => ""
        | .vNull => ""
        | y => jsToStringFuel f y))
    | .vObj _ => "[object Object]"

mutual

/-- Structural depth of a value (fuel bound for `jsToStringFuel`). -/
def jsDepth : JSVal → Nat
  | .vArr xs => jsDepthList xs + 1
  | .vObj fs => jsDepthFields fs + 1
  | _ => 1

def jsDepthList : List JSVal → Nat
  | [] => 0
  | x :: xs => max (jsDepth x) (jsDepthList xs)

def jsDepthFields : List (String × JSVal) → Nat
  | [] => 0
  | p :: fs => max (jsDepth p.2) (jsDepthFields fs)

end

/-- `String(v)`. -/
def jsToString (v : JSVal) : String := jsToStringFuel (jsDepth v) v

/-- `Number(v)`: arrays coerce through their string form; plain objects
coerce through `"[object Object]"`, which is `NaN`. -/
def jsToNumber : JSVal → NumV
  | .vUndef => .nan
  | .vNull => .fin 0
  | .vBool b => .fin (if b then 1 else 0)
  | .vNum q => .fin q
  | .vStr s => strToNumber s
  | .vArr xs => strToNumber (jsToString (.vArr xs))
  | .vObj _ => .nan

/-- `Math.min(10, Math.max(1, Number(v) || 1))`: `NaN` and `0` fall back to
`1` via `|| 1`; `+Infinity` caps at `10`, `-Infinity` floors at `1`. -/
def clampScore (v : JSVal) : ℚ :=
  match jsToNumber v with
  | .nan => 1
  | .inf pos => if pos then 10 else 1
  | .fin q => if q = 0 then 1 else min 10 (max 1 q)

/-- `Number(x.toFixed(2))` on a finite value: round to 2 decimal places,
ties away from zero toward `+∞` (the ECMAScript `toFixed` tie rule), matching
`round`.  (Real `toFixed` applies this to the nearest binary float; the
exact-rational model rounds the exact value.) -/
def round2 (q : ℚ) : ℚ := (round (q * 100) : ℤ) / 100

/-- `Math.round`: `⌊x + 1/2⌋`, i.e. half-up, which is Mathlib's `round`. -/
def jsRound (q : ℚ) : ℤ := round q

/-! ### `sanitizeText`: emoji stripping, whitespace collapse, banned-phrase
removal, sentence capping -/

/-- A banned-phrase pattern: literal lowercase segments separated by `\s*`
gaps (e.g. `/get\s*rich/` is `[['g','e','t'], ['r','i','c','h']]`). -/
abbrev Pat := List (List Char)

/-- Case-insensitive literal match at the head of the list; returns the
number of characters consumed. -/
def matchLit : List Char → List Char → Option Nat
  | [], _ => some 0
  | _ :: _, [] => none
  | p :: ps, c :: cs =>
    if asciiLower c == p then (matchLit ps cs).map (· + 1) else none

/-- Length of the maximal whitespace run at the head. -/
def countWs : List Char → Nat
  | [] => 0
  | c :: cs => if isJsWs c then countWs cs + 1 else 0

/-- Match the `\s*`-separated tail segments of a pattern.  Greedy whitespace
consumption is exact here (no backtracking needed) because every segment
starts with a non-whitespace character. -/
def matchTail : Pat → List Char → Option Nat
  | [], _ => some 0
  | seg :: rest, cs =>
    let w := countWs cs
    match matchLit seg (cs.drop w) with
    | none => none
    | some n =>
      match matchTail rest (cs.drop (w + n)) with
      | none => none
      | some m => some (w + n + m)

/-- Match a whole pattern at the head of the list; returns the length of the
match. -/
def matchPat : Pat → List Char → Option Nat
  | [], _ => none
  | seg :: rest, cs =>
    match matchLit seg cs with
    | none => none
    | some n =>
      match matchTail rest (cs.drop n) with
      | none => none
      | some m => some (n + m)

/-- `s.replace(rx, "")` for a global pattern: scan left to right, removing
each (leftmost, non-overlapping) match and continuing after it — the output
is not rescanned across a removal boundary.  Structural on a fuel that the
list length always covers (every match consumes at least one character, the
pattern literals being non-empty). -/
def removeAllFuel : Nat → Pat → List Char → List Char
  | 0, _, cs => cs
  | _ + 1, _, [] => []
  | f + 1, p, c :: rest =>
    match matchPat p (c :: rest) with
    | some (n + 1) => removeAllFuel f p ((c :: rest).drop (n + 1))
    | _ => c :: removeAllFuel f p rest

def removeAll (p : Pat) (cs : List Char) : List Char :=
  removeAllFuel cs.length p cs

/-- The banned patterns, in source order:
`/guaranteed/gi, /effortless/gi, /overnight/gi, /get\s*rich/gi,
 /no\s*risk/gi, /passive\s*income/gi, /100%\s*success/gi,
 /secret\s*hack/gi, /viral\s*overnight/gi`. -/
def bannedPats : List Pat :=
  [["guaranteed".data], ["effortless".data], ["overnight".data],
   ["get".data, "rich".data], ["no".data, "risk".data],
   ["passive".data, "income".data], ["100%".data, "success".data],
   ["secret".data, "hack".data], ["viral".data, "overnight".data]]

/-- `s.split(/(?<=\.)\s+/)`: split on maximal whitespace runs that
immediately follow a `'.'`.  `acc` holds the current part reversed; the
fuel (list length suffices) covers the `dropWhile` jump at each split. -/
def sentSplitFuel : Nat → List Char → List Char → List (List Char)
  | 0, cs, acc => [acc.reverse ++ cs]
  | _ + 1, [], acc => [acc.reverse]
  | f + 1, c :: rest, acc =>
    if isJsWs c && acc.head? == some '.' then
      acc.reverse :: sentSplitFuel f (rest.dropWhile isJsWs) []
    else sentSplitFuel f rest (c :: acc)

def sentSplit (cs : List Char) : List (List Char) :=
  sentSplitFuel cs.length cs []

/-- `sentences.join(" ")`: interpose a single space between parts. -/
def joinSp : List (List Char) → List Char
  | [] => []
  | [p] => p
  | p :: q :: rest => p ++ ' ' :: joinSp (q :: rest)

/-- `sanitizeText` (ideas.ts lines 15–31): falsy input returned unchanged;
otherwise strip pictographic characters, collapse whitespace runs and trim,
remove each banned pattern globally (one left-to-right pass per pattern, in
order), keep at most 3 sentences, re-join with single spaces, trim. -/
def sanitizeText (s : String) : String :=
  if s == "" then s
  else
    let cs := s.data.filter (fun c => !isEmojiChar c)
    let cs := trimWs (collapseWs cs)
    let cs := bannedPats.foldl (fun acc p => removeAll p acc) cs
    String.mk (trimWs (joinSp ((sentSplit cs).take 3)))

/-- `sanitizeText` as applied elementwise by
`ins.validation.map(sanitizeText)` / `ins.risks.map(sanitizeText)` — the one
call site with no `String(...)` coercion.  A falsy argument is returned
unchanged (the `if (!s) return s` guard); a truthy non-string throws
(`.replace` is not a function), modelled as `none`. -/
def sanitizeTextVal (v : JSVal) : Option JSVal :=
  if jsTruthy v then
    match v with
    | .vStr s => some (.vStr (sanitizeText s))
    | _ => none
  else some v

/-- `sanitizeText(String(v || ""))`: the coercion used for every other
sanitized field. -/
def sanStr (v : JSVal) : String :=
  sanitizeText (if jsTruthy v then jsToString v else "")

/-! ### `clampIdea` (ideas.ts lines 33–78) -/

/-- One section entry: `{heading: sanitize(String(sec?.heading || "")),
body: sanitize(String(sec?.body || "")).slice(0, 550)}`. -/
def clampSection (sec : JSVal) : JSVal :=
  .vObj [("heading", .vStr (sanStr (getField sec "heading"))),
         ("body", .vStr (strTake (sanStr (getField sec "body")) 550))]

/-- The in-place rounding of `ins.numbers`: each of the five monetary keys
rounded to 2 decimals when it holds a number; `breakEvenCustomers` rounded
to a non-negative integer when it holds a number.  On a non-object the
guards all read `undefined`, so nothing changes. -/
def clampNumbers (n : JSVal) : JSVal :=
  let n1 := ["price", "cogs", "marginPct", "startupCost", "monthlyCost"].foldl
    (fun m k =>
      match getField m k with
      | .vNum q => setField m k (.vNum (round2 q))
      | _ => m) n
  match getField n1 "breakEvenCustomers" with
  | .vNum q => setField n1 "breakEvenCustomers" (.vNum ((max 0 (jsRound q) : ℤ) : ℚ))
  | _ => n1

/-- One tooling entry (ideas.ts lines 65–69): name/use sanitized and capped,
`estMonthly` rounded when a number and replaced by `0` otherwise. -/
def clampTool (t : JSVal) : JSVal :=
  .vObj [("name", .vStr (strTake (sanStr (getField t "name")) 40)),
         ("use", .vStr (strTake (sanStr (getField t "use")) 120)),
         ("estMonthly", .vNum (match getField t "estMonthly" with
                               | .vNum q => round2 q
                               | _ => 0))]

/-- `xs.map(sanitizeText)` over a dynamic array: `none` as soon as any
element is a truthy non-string (whose `.replace` call throws). -/
def mapSan : List JSVal → Option (List JSVal)
  | [] => some []
  | x :: t =>
    match sanitizeTextVal x, mapSan t with
    | some y, some ys => some (y :: ys)
    | _, _ => none

/-- `ins.validation = ins.validation.map(sanitizeText).slice(0,3)` when
validation is an array (ideas.ts line 62). -/
def clampValidation (o : JSVal) : Option JSVal :=
  match getField o "validation" with
  | .vArr xs =>
    match mapSan xs with
    | some ys => some (setField o "validation" (.vArr (ys.take 3)))
    | none => none
  | _ => some o

/-- Same for risks (ideas.ts line 63). -/
def clampRisks (o : JSVal) : Option JSVal :=
  match getField o "risks" with
  | .vArr xs =>
    match mapSan xs with
    | some ys => some (setField o "risks" (.vArr (ys.take 3)))
    | none => none
  | _ => some o

/-- The tooling rewrite (ideas.ts lines 64–70). -/
def clampToolingStep (o : JSVal) : JSVal :=
  match getField o "tooling" with
  | .vArr ts => setField o "tooling" (.vArr ((ts.map clampTool).take 6))
  | _ => o

/-- The kpis rewrite (ideas.ts lines 71–75). -/
def clampKpisStep (o : JSVal) : JSVal :=
  let kv := getField o "kpis"
  if jsTruthy kv then
    let k1 := setField kv "week1" (.vStr (strTake (sanStr (getField kv "week1")) 120))
    let k2 := setField k1 "month1" (.vStr (strTake (sanStr (getField k1 "month1")) 140))
    let k3 := setField k2 "quarter1" (.vStr (strTake (sanStr (getField k2 "quarter1")) 160))
    setField o "kpis" k3
  else o

/-- Line 52: the feasibility rewrite. -/
def clampFeasStep (ins : JSVal) : JSVal :=
  setField ins "feasibility" (.vStr (strTake (sanStr (getField ins "feasibility")) 240))

/-- Lines 53–61: the `if (ins.numbers)` rounding block. -/
def clampNumbersStep (o : JSVal) : JSVal :=
  if jsTruthy (getField o "numbers") then
    setField o "numbers" (clampNumbers (getField o "numbers"))
  else o

/-- The `if (idea?.insights)` block (ideas.ts lines 50–76).  `none` models
the `TypeError` thrown when `ins.validation` / `ins.risks` is an array
containing a truthy non-string (the only uncoerced `sanitizeText` calls). -/
def clampInsights (ins : JSVal) : Option JSVal :=
  match clampValidation (clampNumbersStep (clampFeasStep ins)) with
  | none => none
  | some i3 =>
    match clampRisks i3 with
    | none => none
    | some i4 => some (clampKpisStep (clampToolingStep i4))

/-- Lines 34–37 of `clampIdea`: the four unconditional scalar assignments
(title, tagline, difficulty, worthiness), each reading from the
current object state. -/
def clampScalarSteps (idea : JSVal) : JSVal :=
  let i1 := setField idea "title" (.vStr (strTake (sanStr (getField idea "title")) 70))
  let i2 := setField i1 "tagline" (.vStr (strTake (sanStr (getField i1 "tagline")) 120))
  let i3 := setField i2 "difficulty" (.vNum (clampScore (getField i2 "difficulty")))
  setField i3 "worthiness" (.vNum (clampScore (getField i3 "worthiness")))

/-- Lines 39–44: rewrite the sections array (when it is an array). -/
def clampSectionsStep (o : JSVal) : JSVal :=
  match getField o "sections" with
  | .vArr secs => setField o "sections" (.vArr ((secs.map clampSection).take 10))
  | _ => o

/-- Lines 45–49: rewrite the firstThreeSteps array (when it is an array). -/
def clampStepsStep (o : JSVal) : JSVal :=
  match getField o "firstThreeSteps" with
  | .vArr steps =>
    setField o "firstThreeSteps"
      (.vArr ((steps.map (fun s => .vStr (strTake (sanStr s) 140))).take 3))
  | _ => o

/-- The straight-line part of `clampIdea` (everything before the
`if (idea?.insights)` block). -/
def clampIdeaCore (idea : JSVal) : JSVal :=
  clampStepsStep (clampSectionsStep (clampScalarSteps idea))

/-- `clampIdea` (ideas.ts lines 33–78).  `none` models a thrown exception:
the very first statement `idea.title = …` throws on a `null`/`undefined`
idea (in every JS mode), and the insights block can throw via
`clampInsights`. -/
def clampIdea (idea : JSVal) : Option JSVal :=
  if looseNull idea then none
  else
    let i6 := clampIdeaCore idea
    let insv := getField i6 "insights"
    if jsTruthy insv then (clampInsights insv).map (setField i6 "insights")
    else some i6

/-! ### `isTooSimilar` / `ensureDistinct` (ideas.ts lines 80–101) -/

/-- The token set of a title/body: lowercase, split on `\W+`, drop empties,
dedup (JS `new Set`). -/
def tokenFinset (s : String) : Finset String :=
  ((wordRuns (s.data.map asciiLower)).map String.mk).toFinset

/-- `isTooSimilar`: token-set overlap against the smaller set, `> 0.6`.
`overlap / denom > 0.6` in JS float arithmetic coincides with the exact test
`5 * overlap > 3 * denom` (the float quotient of such small integers never
crosses `0.6` the other way). -/
def isTooSimilar (a b : String) : Bool :=
  let ta := tokenFinset a
  let tb := tokenFinset b
  let overlap := (ta ∩ tb).card
  let denom := max 1 (min ta.card tb.card)
  5 * overlap > 3 * denom

/-- The string an `isTooSimilar` argument contributes after `(x || "")
.toLowerCase()`: falsy values become `""`; a truthy non-string throws
(`toLowerCase` is not a function), modelled as `none`. -/
def simArg (v : JSVal) : Option String :=
  if jsTruthy v then
    match v with
    | .vStr s => some s
    | _ => none
  else some ""

/-- `idea.sections?.[1]?.body`. -/
def secondBody (idea : JSVal) : JSVal :=
  getField (idx (getField idea "sections") 1) "body"

/-- `ideas[j].title = (ideas[j].title || "Idea") + " — Alt"`. -/
def setTitleAlt (b : JSVal) : JSVal :=
  let t := getField b "title"
  let base := if jsTruthy t then jsToString t else "Idea"
  setField b "title" (.vStr (base ++ " — Alt"))

/-- A plain property read `x.f` with no optional chaining: on `null` or
`undefined` it throws a TypeError (`none`); every other value is boxed and
the read proceeds as `getField` (primitives own no fields, so it yields
`undefined` there). -/
def getFieldT (v : JSVal) (k : String) : Option JSVal :=
  match v with
  | .vNull => none
  | .vUndef => none
  | w => some (getField w k)

/-- One iteration of the nested `ensureDistinct` loops: compare ideas `i`
and `j` (titles first, then — only if the titles don't trigger, by `||`
short-circuit — second-section bodies) and suffix idea `j`'s title on a
hit.  The title reads `ideas[i].title` / `ideas[j].title` have no optional
chaining, so a `null`/`undefined` element throws (`none`) before anything
is compared; the later `sections?.[1]?.body` reads are guarded and can no
longer throw on the element itself.  `none` also covers an argument
conversion throwing inside `isTooSimilar` (`toLowerCase` on a truthy
non-string); which operand throws first does not change the outcome, so
the operand pairs are matched jointly. -/
def compareAt (ideas : List JSVal) (i j : Nat) : Option (List JSVal) :=
  match getFieldT (ideas.getD i .vUndef) "title",
        getFieldT (ideas.getD j .vUndef) "title" with
  | some ti, some tj =>
    match simArg ti, simArg tj with
    | some ta, some tb =>
      if isTooSimilar ta tb then
        some (ideas.set j (setTitleAlt (ideas.getD j .vUndef)))
      else
        match simArg (secondBody (ideas.getD i .vUndef)),
              simArg (secondBody (ideas.getD j .vUndef)) with
        | some ba, some bb =>
          if isTooSimilar ba bb then
            some (ideas.set j (setTitleAlt (ideas.getD j .vUndef)))
          else some ideas
        | _, _ => none
    | _, _ => none
  | _, _ => none

/-- The loop order of `ensureDistinct`: `(0,1), (0,2), …, (1,2), …` —
all pairs `i < j`, `i` outer. -/
def pairIdx (n : Nat) : List (Nat × Nat) :=
  (List.range n).flatMap (fun i => ((List.range n).filter (fun j => i < j)).map (fun j => (i, j)))

/-- `ensureDistinct` (ideas.ts lines 90–101), threading the mutated array
through the pair comparisons in loop order. -/
def ensureDistinct (ideas : List JSVal) : Option (List JSVal) :=
  (pairIdx ideas.length).foldlM (fun acc ij => compareAt acc ij.1 ij.2) ideas

/-! ### The HTTP handler (ideas.ts lines 105–352) -/

/-- The three CORS headers, set unconditionally on entry, hence present on
every response. -/
def corsHeaders : List (String × String) :=
  [("Access-Control-Allow-Origin", "*"),
   ("Access-Control-Allow-Methods", "POST, OPTIONS"),
   ("Access-Control-Allow-Headers", "Content-Type")]

/-- An HTTP response as the handler produces it: status, headers, and a JSON
body (`none` = the empty `res.status(200).end()` body of the OPTIONS arm). -/
structure HttpResponse where
  status : Nat
  headers : List (String × String)
  body : Option JSVal

/-- The generation capability's output, in the two views the handler
consumes: the raw text (`ai.output_text || ""`) and the result of
`JSON.parse` on it (`none` = parse threw).  `JSON.parse` itself is a
platform primitive, so its outcome is data here. -/
structure GenOut where
  text : String
  parsed : Option JSVal

def errBody (e : String) : JSVal := .vObj [("error", .vStr e)]

def errBody2 (e d : String) : JSVal :=
  .vObj [("error", .vStr e), ("detail", .vStr d)]

/-- Stand-in for `err?.message || String(err)` on the caught-exception arm:
the message text is runtime-specific and nothing downstream consults it. -/
def excMsg : String := "TypeError"

/-- The required-field check (ideas.ts lines 121–129): `age`, `hoursPerWeek`
and `seedBudget` are compared loosely to `null`; the four string fields are
tested for truthiness. -/
def missingFields (body : JSVal) : Bool :=
  looseNull (getField body "age") || !jsTruthy (getField body "location") ||
  !jsTruthy (getField body "strengths") || !jsTruthy (getField body "enjoys") ||
  !jsTruthy (getField body "skillset") || looseNull (getField body "hoursPerWeek") ||
  looseNull (getField body "seedBudget")

/-- The shape-error 500 (ideas.ts lines 335–340). -/
def shapeErr : HttpResponse :=
  ⟨500, corsHeaders,
   some (errBody2 "Invalid model output" "Expected `ideas` array with exactly 3 items.")⟩

/-- `data.ideas.map(clampIdea)` with exception propagation: `none` as soon
as any element throws (the handler's `try/catch` turns that into a 500
whatever the position). -/
def mapClamp : List JSVal → Option (List JSVal)
  | [] => some []
  | x :: t =>
    match clampIdea x, mapClamp t with
    | some y, some ys => some (y :: ys)
    | _, _ => none

/-- The POST arm of the handler: validate, (generation already happened —
its output is `gen`), parse-check, shape-check, clamp, dedup, respond.
`reqBody` is the platform-parsed request body (`req.body`); `|| {}` replaces
a falsy body by an empty object as in line 118. -/
def handlePost (reqBody : JSVal) (gen : GenOut) : HttpResponse :=
  let body := if jsTruthy reqBody then reqBody else .vObj []
  if missingFields body then
    ⟨400, corsHeaders, some (errBody "Missing required fields")⟩
  else
    match gen.parsed with
    | none =>
      ⟨500, corsHeaders,
       some (errBody2 "Invalid model output (not JSON)" (strTake gen.text 500))⟩
    | some data =>
      match getField data "ideas" with
      | .vArr ideas =>
        if ideas.length == 3 then
          match mapClamp ideas with
          | none => ⟨500, corsHeaders, some (errBody2 "FUNCTION_INVOCATION_FAILED" excMsg)⟩
          | some clamped =>
            match ensureDistinct clamped with
            | none => ⟨500, corsHeaders, some (errBody2 "FUNCTION_INVOCATION_FAILED" excMsg)⟩
            | some finals =>
              ⟨200, corsHeaders, some (setField data "ideas" (.vArr finals))⟩
        else shapeErr
      | _ => shapeErr

/-- The full handler: CORS headers always set; OPTIONS → empty 200; any
other non-POST → 405; POST → `handlePost`. -/
def handler (method : String) (reqBody : JSVal) (gen : GenOut) : HttpResponse :=
  if method == "OPTIONS" then ⟨200, corsHeaders, none⟩
  else if method != "POST" then
    ⟨405, corsHeaders, some (errBody "Method not allowed")⟩
  else handlePost reqBody gen

/-- The ideas array of a response body (empty for error bodies). -/
def responseIdeas (r : HttpResponse) : List JSVal :=
  match r.body with
  | some b =>
    match getField b "ideas" with
    | .vArr l => l
    | _ => []
  | none => []

/-! ### Lemmas: the value model -/

/-- Whether a value is a plain object. -/
def isVObj : JSVal → Bool
  | .vObj _ => true
  | _ => false

theorem lookup_setAssoc_self (fs : List (String × JSVal)) (k : String) (v : JSVal) :
    List.lookup k (setAssoc fs k v) = some v := by
  induction fs with
  | nil => simp [setAssoc, List.lookup]
  | cons p t ih =>
    obtain ⟨a, b⟩ := p
    by_cases h : a = k
    · subst h
      simp [setAssoc, List.lookup]
    · simp only [setAssoc, beq_iff_eq, h, if_false, List.lookup]
      have : (k == a) = false := by simp [beq_iff_eq]; exact fun e => h e.symm
      simp [this, ih]

theorem lookup_setAssoc_ne (fs : List (String × JSVal)) {k k' : String} (v : JSVal)
    (h : k' ≠ k) : List.lookup k' (setAssoc fs k v) = List.lookup k' fs := by
  have hne : (k' == k) = false := beq_eq_false_iff_ne.mpr h
  induction fs with
  | nil => simp [setAssoc, List.lookup, hne]
  | cons p t ih =>
    obtain ⟨a, b⟩ := p
    by_cases ha : a = k
    · subst ha
      simp [setAssoc, List.lookup, hne]
    · have ha' : (a == k) = false := beq_eq_false_iff_ne.mpr ha
      simp only [setAssoc, ha', if_false, List.lookup]
      cases hk : (k' == a) <;> simp [ih]

theorem getField_setField_self (fs : List (String × JSVal)) (k : String) (v : JSVal) :
    getField (setField (.vObj fs) k v) k = v := by
  simp [getField, setField, lookup_setAssoc_self]

theorem getField_setField_ne (o : JSVal) {k k' : String} (v : JSVal) (h : k' ≠ k) :
    getField (setField o k v) k' = getField o k' := by
  cases o <;> simp [getField, setField, lookup_setAssoc_ne _ _ h]

theorem isVObj_setField (o : JSVal) (k : String) (v : JSVal) :
    isVObj (setField o k v) = isVObj o := by
  cases o <;> simp [isVObj, setField]

theorem setField_not_obj {o : JSVal} (h : isVObj o = false) (k : String) (v : JSVal) :
    setField o k v = o := by
  cases o <;> simp_all [isVObj, setField]

theorem getField_not_obj {o : JSVal} (h : isVObj o = false) (k : String) :
    getField o k = .vUndef := by
  cases o <;> simp_all [isVObj, getField]

theorem lookup_eq_none_of_all_ne {k : String} :
    ∀ {fs : List (String × JSVal)}, (∀ p ∈ fs, ¬p.1 = k) → List.lookup k fs = none
  | [], _ => by simp [List.lookup]
  | (a, b) :: t, h => by
    have ha : (k == a) = false :=
      beq_eq_false_iff_ne.mpr (fun e => h (a, b) (by simp) e.symm)
    simp only [List.lookup, ha]
    exact lookup_eq_none_of_all_ne (fun p hp => h p (List.mem_cons_of_mem _ hp))

theorem getField_of_hasKey_false {o : JSVal} {k : String} (h : hasKey o k = false) :
    getField o k = .vUndef := by
  cases o with
  | vObj fs =>
    simp only [hasKey, List.any_eq_false, beq_iff_eq] at h
    simp [getField, lookup_eq_none_of_all_ne h]
  | vUndef => simp [getField]
  | vNull => simp [getField]
  | vBool b => simp [getField]
  | vNum q => simp [getField]
  | vStr s => simp [getField]
  | vArr l => simp [getField]

/-! ### Lemmas: score clamping -/

theorem clampScore_ge_one (v : JSVal) : 1 ≤ clampScore v := by
  unfold clampScore
  cases jsToNumber v with
  | nan => norm_num
  | inf pos => cases pos <;> norm_num
  | fin q =>
    by_cases h : q = 0
    · simp [h]
    · simp only [h, if_false]
      exact le_min (by norm_num) (le_max_left 1 q)

theorem clampScore_le_ten (v : JSVal) : clampScore v ≤ 10 := by
  unfold clampScore
  cases jsToNumber v with
  | nan => norm_num
  | inf pos => cases pos <;> norm_num
  | fin q =>
    by_cases h : q = 0
    · simp [h]
    · simp only [h, if_false]
      exact min_le_left 10 _

/-! ### Lemmas: `clampIdea` field behaviour -/

theorem getField_setField_self' {o : JSVal} (h : isVObj o = true) (k : String)
    (v : JSVal) : getField (setField o k v) k = v := by
  cases o with
  | vObj fs => exact getField_setField_self fs k v
  | vUndef => simp [isVObj] at h
  | vNull => simp [isVObj] at h
  | vBool b => simp [isVObj] at h
  | vNum q => simp [isVObj] at h
  | vStr s => simp [isVObj] at h
  | vArr l => simp [isVObj] at h

theorem getField_clampSectionsStep_ne (o : JSVal) {k : String} (h : k ≠ "sections") :
    getField (clampSectionsStep o) k = getField o k := by
  unfold clampSectionsStep
  cases hs : getField o "sections" <;> simp [getField_setField_ne _ _ h]

theorem getField_clampStepsStep_ne (o : JSVal) {k : String} (h : k ≠ "firstThreeSteps") :
    getField (clampStepsStep o) k = getField o k := by
  unfold clampStepsStep
  cases hs : getField o "firstThreeSteps" <;> simp [getField_setField_ne _ _ h]

theorem isVObj_clampSectionsStep (o : JSVal) : isVObj (clampSectionsStep o) = isVObj o := by
  unfold clampSectionsStep
  cases hs : getField o "sections" <;> simp [isVObj_setField]

theorem isVObj_clampStepsStep (o : JSVal) : isVObj (clampStepsStep o) = isVObj o := by
  unfold clampStepsStep
  cases hs : getField o "firstThreeSteps" <;> simp [isVObj_setField]

theorem isVObj_clampScalarSteps (o : JSVal) : isVObj (clampScalarSteps o) = isVObj o := by
  unfold clampScalarSteps
  simp [isVObj_setField]

theorem isVObj_clampIdeaCore (o : JSVal) : isVObj (clampIdeaCore o) = isVObj o := by
  unfold clampIdeaCore
  rw [isVObj_clampStepsStep, isVObj_clampSectionsStep, isVObj_clampScalarSteps]

theorem clampScalarSteps_title {o : JSVal} (h : isVObj o = true) :
    getField (clampScalarSteps o) "title" =
      .vStr (strTake (sanStr (getField o "title")) 70) := by
  unfold clampScalarSteps
  rw [getField_setField_ne _ _ (by decide : ("title" : String) ≠ "worthiness"),
      getField_setField_ne _ _ (by decide : ("title" : String) ≠ "difficulty"),
      getField_setField_ne _ _ (by decide : ("title" : String) ≠ "tagline"),
      getField_setField_self' h]

theorem clampScalarSteps_tagline {o : JSVal} (h : isVObj o = true) :
    getField (clampScalarSteps o) "tagline" =
      .vStr (strTake (sanStr (getField o "tagline")) 120) := by
  unfold clampScalarSteps
  rw [getField_setField_ne _ _ (by decide : ("tagline" : String) ≠ "worthiness"),
      getField_setField_ne _ _ (by decide : ("tagline" : String) ≠ "difficulty"),
      getField_setField_self' (by rw [isVObj_setField]; exact h),
      getField_setField_ne _ _ (by decide : ("tagline" : String) ≠ "title")]

theorem clampScalarSteps_difficulty {o : JSVal} (h : isVObj o = true) :
    getField (clampScalarSteps o) "difficulty" =
      .vNum (clampScore (getField o "difficulty")) := by
  unfold clampScalarSteps
  rw [getField_setField_ne _ _ (by decide : ("difficulty" : String) ≠ "worthiness"),
      getField_setField_self' (by rw [isVObj_setField, isVObj_setField]; exact h),
      getField_setField_ne _ _ (by decide : ("difficulty" : String) ≠ "tagline"),
      getField_setField_ne _ _ (by decide : ("difficulty" : String) ≠ "title")]

theorem clampScalarSteps_worthiness {o : JSVal} (h : isVObj o = true) :
    getField (clampScalarSteps o) "worthiness" =
      .vNum (clampScore (getField o "worthiness")) := by
  unfold clampScalarSteps
  rw [getField_setField_self'
        (by rw [isVObj_setField, isVObj_setField, isVObj_setField]; exact h),
      getField_setField_ne _ _ (by decide : ("worthiness" : String) ≠ "difficulty"),
      getField_setField_ne _ _ (by decide : ("worthiness" : String) ≠ "tagline"),
      getField_setField_ne _ _ (by decide : ("worthiness" : String) ≠ "title")]

theorem clampScalarSteps_ne (o : JSVal) {k : String} (h1 : k ≠ "title")
    (h2 : k ≠ "tagline") (h3 : k ≠ "difficulty") (h4 : k ≠ "worthiness") :
    getField (clampScalarSteps o) k = getField o k := by
  unfold clampScalarSteps
  rw [getField_setField_ne _ _ h4, getField_setField_ne _ _ h3,
      getField_setField_ne _ _ h2, getField_setField_ne _ _ h1]

theorem clampIdeaCore_title {o : JSVal} (h : isVObj o = true) :
    getField (clampIdeaCore o) "title" =
      .vStr (strTake (sanStr (getField o "title")) 70) := by
  unfold clampIdeaCore
  rw [getField_clampStepsStep_ne _ (by decide),
      getField_clampSectionsStep_ne _ (by decide), clampScalarSteps_title h]

theorem clampIdeaCore_tagline {o : JSVal} (h : isVObj o = true) :
    getField (clampIdeaCore o) "tagline" =
      .vStr (strTake (sanStr (getField o "tagline")) 120) := by
  unfold clampIdeaCore
  rw [getField_clampStepsStep_ne _ (by decide),
      getField_clampSectionsStep_ne _ (by decide), clampScalarSteps_tagline h]

theorem clampIdeaCore_difficulty {o : JSVal} (h : isVObj o = true) :
    getField (clampIdeaCore o) "difficulty" =
      .vNum (clampScore (getField o "difficulty")) := by
  unfold clampIdeaCore
  rw [getField_clampStepsStep_ne _ (by decide),
      getField_clampSectionsStep_ne _ (by decide), clampScalarSteps_difficulty h]

theorem clampIdeaCore_worthiness {o : JSVal} (h : isVObj o = true) :
    getField (clampIdeaCore o) "worthiness" =
      .vNum (clampScore (getField o "worthiness")) := by
  unfold clampIdeaCore
  rw [getField_clampStepsStep_ne _ (by decide),
      getField_clampSectionsStep_ne _ (by decide), clampScalarSteps_worthiness h]

theorem clampIdeaCore_insights (o : JSVal) :
    getField (clampIdeaCore o) "insights" = getField o "insights" := by
  unfold clampIdeaCore
  rw [getField_clampStepsStep_ne _ (by decide),
      getField_clampSectionsStep_ne _ (by decide),
      clampScalarSteps_ne _ (by decide) (by decide) (by decide) (by decide)]

theorem clampIdeaCore_sections {o : JSVal} (h : isVObj o = true)
    {secs : List JSVal} (hs : getField o "sections" = .vArr secs) :
    getField (clampIdeaCore o) "sections" =
      .vArr ((secs.map clampSection).take 10) := by
  unfold clampIdeaCore
  rw [getField_clampStepsStep_ne _ (by decide)]
  unfold clampSectionsStep
  rw [clampScalarSteps_ne _ (by decide) (by decide) (by decide) (by decide), hs]
  exact getField_setField_self' (by rw [isVObj_clampScalarSteps]; exact h) _ _

theorem clampIdeaCore_steps {o : JSVal} (h : isVObj o = true)
    {steps : List JSVal} (hs : getField o "firstThreeSteps" = .vArr steps) :
    getField (clampIdeaCore o) "firstThreeSteps" =
      .vArr ((steps.map (fun s => .vStr (strTake (sanStr s) 140))).take 3) := by
  unfold clampIdeaCore clampStepsStep
  rw [getField_clampSectionsStep_ne _ (by decide),
      clampScalarSteps_ne _ (by decide) (by decide) (by decide) (by decide), hs]
  exact getField_setField_self'
    (by rw [isVObj_clampSectionsStep, isVObj_clampScalarSteps]; exact h) _ _

/-- For a non-object, non-null idea every assignment is a no-op and both
array guards read `undefined`, so `clampIdea` is the identity. -/
theorem clampIdea_not_obj {o : JSVal} (hobj : isVObj o = false)
    (hnull : looseNull o = false) : clampIdea o = some o := by
  have hcore : clampIdeaCore o = o := by
    unfold clampIdeaCore clampScalarSteps clampSectionsStep clampStepsStep
    simp only [setField_not_obj hobj, getField_not_obj hobj]
  unfold clampIdea
  rw [hnull]
  simp only [Bool.false_eq_true, if_false, hcore]
  rw [getField_not_obj hobj "insights"]
  simp [jsTruthy]

/-- Exploding a successful `clampIdea`: the result is the core either as-is
or with a rewritten insights field. -/
theorem clampIdea_some {o w : JSVal} (h : clampIdea o = some w) :
    looseNull o = false ∧
      (w = clampIdeaCore o ∨
        ∃ ins', clampInsights (getField (clampIdeaCore o) "insights") = some ins' ∧
          w = setField (clampIdeaCore o) "insights" ins') := by
  unfold clampIdea at h
  by_cases hn : looseNull o = true
  · simp [hn] at h
  · have hn' : looseNull o = false := by simpa using hn
    refine ⟨hn', ?_⟩
    rw [hn'] at h
    simp only [Bool.false_eq_true, if_false] at h
    by_cases ht : jsTruthy (getField (clampIdeaCore o) "insights") = true
    · rw [ht] at h
      simp only [if_true, Option.map_eq_some'] at h
      obtain ⟨ins', hi, hw⟩ := h
      exact Or.inr ⟨ins', hi, hw.symm⟩
    · have ht' : jsTruthy (getField (clampIdeaCore o) "insights") = false := by simpa using ht
      rw [ht'] at h
      simp only [Bool.false_eq_true, if_false, Option.some.injEq] at h
      exact Or.inl h.symm

/-- `clampIdea` preserves objectness. -/
theorem clampIdea_isVObj {o w : JSVal} (h : clampIdea o = some w) :
    isVObj w = isVObj o := by
  obtain ⟨-, hw | ⟨ins', -, hw⟩⟩ := clampIdea_some h
  · rw [hw, isVObj_clampIdeaCore]
  · rw [hw, isVObj_setField, isVObj_clampIdeaCore]

/-- The non-insights fields of a clamped idea are those of the core. -/
theorem clampIdea_getField_ne {o w : JSVal} (h : clampIdea o = some w)
    {k : String} (hk : k ≠ "insights") :
    getField w k = getField (clampIdeaCore o) k := by
  obtain ⟨-, hw | ⟨ins', -, hw⟩⟩ := clampIdea_some h
  · rw [hw]
  · rw [hw, getField_setField_ne _ _ hk]

/-! ### Lemmas: `ensureDistinct` -/

/-- Iterated application of the `" — Alt"` title mutation. -/
def iterAlt : Nat → JSVal → JSVal
  | 0, x => x
  | n + 1, x => setTitleAlt (iterAlt n x)

theorem iterAlt_add (n m : Nat) (x : JSVal) :
    iterAlt n (iterAlt m x) = iterAlt (n + m) x := by
  induction n with
  | zero => simp [iterAlt]
  | succ n ih =>
    rw [show n + 1 + m = (n + m) + 1 by omega]
    simp only [iterAlt, ih]

theorem getField_iterAlt_ne (n : Nat) (x : JSVal) {k : String} (hk : k ≠ "title") :
    getField (iterAlt n x) k = getField x k := by
  induction n with
  | zero => rfl
  | succ n ih =>
    simp only [iterAlt, setTitleAlt]
    rw [getField_setField_ne _ _ hk, ih]

theorem isVObj_iterAlt (n : Nat) (x : JSVal) : isVObj (iterAlt n x) = isVObj x := by
  induction n with
  | zero => rfl
  | succ n ih => simp only [iterAlt, setTitleAlt, isVObj_setField, ih]

theorem iterAlt_not_obj {x : JSVal} (h : isVObj x = false) (n : Nat) :
    iterAlt n x = x := by
  induction n with
  | zero => rfl
  | succ n ih => simp only [iterAlt, ih, setTitleAlt, setField_not_obj h]

theorem set_oob {l : List JSVal} {j : Nat} (hj : ¬j < l.length) (x : JSVal) :
    l.set j x = l :=
  List.set_eq_of_length_le (Nat.le_of_not_lt hj)

theorem getD_set_eq {l : List JSVal} {j : Nat} (hj : j < l.length) (x : JSVal) :
    (l.set j x).getD j .vUndef = x := by
  rw [List.getD_eq_getElem?_getD, List.getElem?_set]
  simp [hj]

theorem getD_set_ne (l : List JSVal) {k j : Nat} (hkj : j ≠ k) (x : JSVal) :
    (l.set j x).getD k .vUndef = l.getD k .vUndef := by
  rw [List.getD_eq_getElem?_getD, List.getElem?_set]
  simp [hkj, List.getD_eq_getElem?_getD]

/-- A non-`undefined` `getField` result comes from a boxable value, so the
throwing read `getFieldT` succeeds with the same result. -/
theorem getFieldT_eq {v : JSVal} {k : String} {w : JSVal}
    (h : getField v k = w) (hw : w ≠ .vUndef) : getFieldT v k = some w := by
  cases v with
  | vUndef => exact absurd h.symm hw
  | vNull => exact absurd h.symm hw
  | vBool b => exact congrArg some h
  | vNum q => exact congrArg some h
  | vStr s => exact congrArg some h
  | vArr l => exact congrArg some h
  | vObj fs => exact congrArg some h

/-- What one loop iteration can do to the array: nothing, or replace entry
`j` by its suffixed version. -/
theorem compareAt_cases {l r : List JSVal} {i j : Nat} (h : compareAt l i j = some r) :
    r = l ∨ r = l.set j (setTitleAlt (l.getD j .vUndef)) := by
  unfold compareAt at h
  split at h
  · split at h
    · split at h
      · cases h
        exact Or.inr rfl
      · split at h
        · split at h
          · cases h
            exact Or.inr rfl
          · cases h
            exact Or.inl rfl
        · cases h
    · cases h
  · cases h

theorem compareAt_length {l r : List JSVal} {i j : Nat} (h : compareAt l i j = some r) :
    r.length = l.length := by
  rcases compareAt_cases h with rfl | rfl
  · rfl
  · exact List.length_set ..

theorem compareAt_getD {l r : List JSVal} {i j : Nat} (h : compareAt l i j = some r)
    (k : Nat) :
    r.getD k .vUndef = l.getD k .vUndef ∨
      (j = k ∧ r.getD k .vUndef = setTitleAlt (l.getD k .vUndef)) := by
  rcases compareAt_cases h with rfl | rfl
  · exact Or.inl rfl
  · by_cases hkj : j = k
    · subst hkj
      by_cases hj : j < l.length
      · exact Or.inr ⟨rfl, getD_set_eq hj _⟩
      · rw [set_oob hj]
        exact Or.inl rfl
    · exact Or.inl (getD_set_ne l hkj _)

theorem foldCA_length :
    ∀ (ps : List (Nat × Nat)) (acc r : List JSVal),
      ps.foldlM (fun a ij => compareAt a ij.1 ij.2) acc = some r →
      r.length = acc.length := by
  intro ps
  induction ps with
  | nil =>
    intro acc r h
    simp only [List.foldlM_nil, Option.pure_def, Option.some.injEq] at h
    rw [← h]
  | cons p ps ih =>
    intro acc r h
    rw [List.foldlM_cons] at h
    cases hstep : compareAt acc p.1 p.2 with
    | none => rw [hstep] at h; simp at h
    | some acc' =>
      rw [hstep] at h
      have h' : ps.foldlM (fun a ij => compareAt a ij.1 ij.2) acc' = some r := h
      rw [ih acc' r h', compareAt_length hstep]

/-- Through a run of loop iterations, each entry of the array is its old
value with the `" — Alt"` mutation applied at most once per iteration that
targets its index. -/
theorem foldCA_getD :
    ∀ (ps : List (Nat × Nat)) (acc r : List JSVal),
      ps.foldlM (fun a ij => compareAt a ij.1 ij.2) acc = some r →
      ∀ k : Nat, ∃ n, n ≤ (ps.filter (fun ij => ij.2 == k)).length ∧
        r.getD k .vUndef = iterAlt n (acc.getD k .vUndef) := by
  intro ps
  induction ps with
  | nil =>
    intro acc r h k
    simp only [List.foldlM_nil, Option.pure_def, Option.some.injEq] at h
    exact ⟨0, Nat.zero_le _, by rw [← h]; rfl⟩
  | cons p ps ih =>
    intro acc r h k
    rw [List.foldlM_cons] at h
    cases hstep : compareAt acc p.1 p.2 with
    | none => rw [hstep] at h; simp at h
    | some acc' =>
    rw [hstep] at h
    have h' : ps.foldlM (fun a ij => compareAt a ij.1 ij.2) acc' = some r := h
    obtain ⟨n, hn, hr⟩ := ih acc' r h' k
    rcases compareAt_getD hstep k with heq | ⟨hjk, heq⟩
    · refine ⟨n, le_trans hn ?_, by rw [hr, heq]⟩
      by_cases hc : p.2 == k <;> simp [List.filter_cons, hc]
    · refine ⟨n + 1, ?_, ?_⟩
      · have hc : (p.2 == k) = true := by simp [hjk]
        simpa [List.filter_cons, hc] using Nat.succ_le_succ hn
      · rw [hr, heq]
        have : setTitleAlt (acc.getD k .vUndef) = iterAlt 1 (acc.getD k .vUndef) := rfl
        rw [this, iterAlt_add]

theorem ensureDistinct_length {l r : List JSVal} (h : ensureDistinct l = some r) :
    r.length = l.length :=
  foldCA_length _ _ _ h

theorem ensureDistinct_getD {l r : List JSVal} (h : ensureDistinct l = some r)
    (k : Nat) :
    ∃ n, n ≤ ((pairIdx l.length).filter (fun ij => ij.2 == k)).length ∧
      r.getD k .vUndef = iterAlt n (l.getD k .vUndef) :=
  foldCA_getD _ _ _ h k

theorem pairIdx_fst_lt_snd {n : Nat} : ∀ ij ∈ pairIdx n, ij.1 < ij.2 := by
  intro ij hij
  simp only [pairIdx, List.mem_flatMap, List.mem_map, List.mem_filter] at hij
  obtain ⟨i, -, j, ⟨-, hlt⟩, rfl⟩ := hij
  simpa using hlt

/-- The first idea is never touched (all pairs have `j ≥ 1`). -/
theorem ensureDistinct_head {l r : List JSVal} (h : ensureDistinct l = some r) :
    r.getD 0 .vUndef = l.getD 0 .vUndef := by
  obtain ⟨n, hn, hr⟩ := ensureDistinct_getD h 0
  have hfil : (pairIdx l.length).filter (fun ij => ij.2 == 0) = [] := by
    rw [List.filter_eq_nil_iff]
    intro ij hij
    have := pairIdx_fst_lt_snd ij hij
    simp only [beq_iff_eq]
    omega
  rw [hfil] at hn
  simp only [List.length_nil, Nat.le_zero] at hn
  rw [hr, hn]
  rfl

/-- Only the title field of any idea can change. -/
theorem ensureDistinct_getField_ne {l r : List JSVal} (h : ensureDistinct l = some r)
    (k : Nat) {key : String} (hk : key ≠ "title") :
    getField (r.getD k .vUndef) key = getField (l.getD k .vUndef) key := by
  obtain ⟨n, -, hr⟩ := ensureDistinct_getD h k
  rw [hr, getField_iterAlt_ne _ _ hk]

/-! ### Lemmas: the handler's 200 path -/

theorem mapClamp_spec :
    ∀ {l r : List JSVal}, mapClamp l = some r →
      r.length = l.length ∧
        ∀ k, k < l.length → clampIdea (l.getD k .vUndef) = some (r.getD k .vUndef) := by
  intro l
  induction l with
  | nil =>
    intro r h
    simp only [mapClamp, Option.some.injEq] at h
    simp [← h]
  | cons a t ih =>
    intro r h
    unfold mapClamp at h
    cases hb : clampIdea a with
    | none => rw [hb] at h; cases h
    | some b =>
    rw [hb] at h
    cases hbs : mapClamp t with
    | none => rw [hbs] at h; cases h
    | some bs =>
    rw [hbs] at h
    cases h
    obtain ⟨hlen, hpt⟩ := ih hbs
    refine ⟨by simp [hlen], ?_⟩
    intro k hk
    cases k with
    | zero => simpa [List.getD_cons_zero] using hb
    | succ k =>
      simp only [List.getD_cons_succ]
      exact hpt k (by simpa using hk)

/-- Exploding a 200 response of the POST path: the generator output parsed,
carried an `ideas` array of length 3, every idea clamped without throwing,
deduplication ran, and the body is the parsed output with `ideas` replaced
by the processed array. -/
theorem handler200_spec {rb : JSVal} {gen : GenOut} {r : HttpResponse}
    (h : handler "POST" rb gen = r) (hs : r.status = 200) :
    ∃ data ideas clamped finals,
      gen.parsed = some data ∧ getField data "ideas" = .vArr ideas ∧
      ideas.length = 3 ∧ mapClamp ideas = some clamped ∧
      ensureDistinct clamped = some finals ∧
      r.body = some (setField data "ideas" (.vArr finals)) ∧
      responseIdeas r = finals := by
  have hpost : handlePost rb gen = r := by
    rw [handler] at h
    simpa using h
  by_cases hmiss : missingFields (if jsTruthy rb then rb else .vObj []) = true
  · exfalso
    rw [← hpost] at hs
    simp [handlePost, hmiss] at hs
  · replace hmiss : missingFields (if jsTruthy rb then rb else .vObj []) = false := by
      simpa using hmiss
    cases hparse : gen.parsed with
    | none =>
      exfalso
      rw [← hpost] at hs
      simp [handlePost, hmiss, hparse] at hs
    | some data =>
      cases hideas : getField data "ideas" with
      | vArr ideas =>
        by_cases hlen : ideas.length = 3
        · cases hclamp : mapClamp ideas with
          | none =>
            exfalso
            rw [← hpost] at hs
            simp [handlePost, hmiss, hparse, hideas, hlen, hclamp] at hs
          | some clamped =>
            cases hfin : ensureDistinct clamped with
            | none =>
              exfalso
              rw [← hpost] at hs
              simp [handlePost, hmiss, hparse, hideas, hlen, hclamp, hfin] at hs
            | some finals =>
              have hr : r = ⟨200, corsHeaders,
                  some (setField data "ideas" (.vArr finals))⟩ := by
                rw [← hpost]
                simp [handlePost, hmiss, hparse, hideas, hlen, hclamp, hfin]
              obtain ⟨fs, rfl⟩ : ∃ fs, data = .vObj fs := by
                cases data <;> simp [getField] at hideas ⊢
              refine ⟨.vObj fs, ideas, clamped, finals, ?_, ?_, ?_, ?_, ?_, ?_, ?_⟩
              · rfl
              · exact hideas
              · exact hlen
              · exact hclamp
              · exact hfin
              · rw [hr]
              · rw [responseIdeas, hr]
                simp only
                rw [getField_setField_self]
        · exfalso
          rw [← hpost] at hs
          simp [handlePost, hmiss, hparse, hideas, hlen, shapeErr] at hs
      | vUndef =>
        exfalso
        rw [← hpost] at hs
        simp [handlePost, hmiss, hparse, hideas, shapeErr] at hs
      | vNull =>
        exfalso
        rw [← hpost] at hs
        simp [handlePost, hmiss, hparse, hideas, shapeErr] at hs
      | vBool b =>
        exfalso
        rw [← hpost] at hs
        simp [handlePost, hmiss, hparse, hideas, shapeErr] at hs
      | vNum q =>
        exfalso
        rw [← hpost] at hs
        simp [handlePost, hmiss, hparse, hideas, shapeErr] at hs
      | vStr s =>
        exfalso
        rw [← hpost] at hs
        simp [handlePost, hmiss, hparse, hideas, shapeErr] at hs
      | vObj gs =>
        exfalso
        rw [← hpost] at hs
        simp [handlePost, hmiss, hparse, hideas, shapeErr] at hs

/-! ### Observation helpers for the claim statements -/

/-- The `k`-th idea of a response. -/
def ideaAt (r : HttpResponse) (k : Nat) : JSVal := (responseIdeas r).getD k JSVal.vUndef

/-- A field viewed as a number. -/
def ratField (v : JSVal) (k : String) : Option ℚ :=
  match getField v k with
  | .vNum q => some q
  | _ => none

/-- A field viewed as a string. -/
def strField (v : JSVal) (k : String) : Option String :=
  match getField v k with
  | .vStr s => some s
  | _ => none

/-- A field viewed as an array length. -/
def arrLenField (v : JSVal) (k : String) : Option Nat :=
  match getField v k with
  | .vArr l => some l.length
  | _ => none

/-- Whether `pre` is a leading segment of the second list. -/
def startsList : List Char → List Char → Bool
  | [], _ => true
  | c :: cs, h :: hs => if c == h then startsList cs hs else false
  | _ :: _, [] => false

/-- Whether `needle` occurs as a contiguous segment of `hay`. -/
def hasSub (needle : List Char) : List Char → Bool
  | [] => needle.isEmpty
  | c :: rest => startsList needle (c :: rest) || hasSub needle rest

/-- Case-insensitive substring occurrence (for the banned-phrase checks). -/
def containsPhrase (phrase s : String) : Bool :=
  hasSub (phrase.data.map asciiLower) (s.data.map asciiLower)

/-- A request body with all seven required fields present and truthy. -/
def sampleBody : JSVal :=
  .vObj [("age", .vNum 30), ("location", .vStr "NY"), ("strengths", .vStr "writing"),
         ("enjoys", .vStr "teaching"), ("skillset", .vStr "design"),
         ("hoursPerWeek", .vNum 5), ("seedBudget", .vNum 100)]

/-- A generator output carrying three given ideas (raw text irrelevant on
the 200 path). -/
def gen3 (i1 i2 i3 : JSVal) : GenOut :=
  ⟨"", some (.vObj [("ideas", .vArr [i1, i2, i3])])⟩

/-- The seven required request fields. -/
def requiredKeys : List String :=
  ["age", "location", "strengths", "enjoys", "skillset", "hoursPerWeek", "seedBudget"]

/-! ### C3 -/

/-- C3: a POST whose parsed body lacks any one of the seven required fields
is answered with HTTP 400, an `error` field and no `ideas` key, and the
response does not depend on the generation capability (it is never
invoked). -/
theorem c3_missing_field_400 (body : JSVal) (gen gen' : GenOut) (k : String)
    (hk : k ∈ requiredKeys) (hmiss : hasKey body k = false) :
    handler "POST" body gen =
      ⟨400, corsHeaders, some (errBody "Missing required fields")⟩ ∧
    hasKey (errBody "Missing required fields") "error" = true ∧
    hasKey (errBody "Missing required fields") "ideas" = false ∧
    handler "POST" body gen = handler "POST" body gen' := by
  have hget : getField (if jsTruthy body then body else .vObj []) k = .vUndef := by
    by_cases ht : jsTruthy body = true
    · rw [if_pos ht]
      exact getField_of_hasKey_false hmiss
    · rw [if_neg (by simpa using ht)]
      rfl
  have hmf : missingFields (if jsTruthy body then body else .vObj []) = true := by
    simp only [requiredKeys, List.mem_cons, List.not_mem_nil, or_false] at hk
    rcases hk with rfl | rfl | rfl | rfl | rfl | rfl | rfl <;>
      · simp only [missingFields, hget]
        simp [looseNull, jsTruthy]
  have h400 : ∀ g : GenOut,
      handler "POST" body g =
        ⟨400, corsHeaders, some (errBody "Missing required fields")⟩ := by
    intro g
    have hh : handler "POST" body g = handlePost body g := rfl
    rw [hh, handlePost, if_pos hmf]
  exact ⟨h400 gen, rfl, rfl, (h400 gen).trans (h400 gen').symm⟩

/-- Witness for C3: the spec's example body `{age: 30, location: "NY"}`. -/
theorem c3_witness :
    ("strengths" : String) ∈ requiredKeys ∧
    hasKey (.vObj [("age", .vNum 30), ("location", .vStr "NY")]) "strengths" = false ∧
    handler "POST" (.vObj [("age", .vNum 30), ("location", .vStr "NY")]) ⟨"", none⟩ =
      ⟨400, corsHeaders, some (errBody "Missing required fields")⟩ :=
  ⟨by simp [requiredKeys], by decide,
   (c3_missing_field_400 (.vObj [("age", .vNum 30), ("location", .vStr "NY")])
      ⟨"", none⟩ ⟨"x", some .vNull⟩ "strengths" (by simp [requiredKeys])
      (by decide)).1⟩

/-! ### C4 -/

/-- C4: an OPTIONS request yields an empty-bodied 200 carrying the three
CORS headers; any other non-POST method yields 405. -/
theorem c4_method_dispatch (rb : JSVal) (gen : GenOut) :
    handler "OPTIONS" rb gen =
      ⟨200,
       [("Access-Control-Allow-Origin", "*"),
        ("Access-Control-Allow-Methods", "POST, OPTIONS"),
        ("Access-Control-Allow-Headers", "Content-Type")], none⟩ ∧
    ∀ m : String, m ≠ "POST" → m ≠ "OPTIONS" →
      handler m rb gen = ⟨405, corsHeaders, some (errBody "Method not allowed")⟩ := by
  constructor
  · rfl
  · intro m h1 h2
    have e1 : (m == "OPTIONS") = false := beq_eq_false_iff_ne.mpr h2
    have e2 : (m != "POST") = true := bne_iff_ne.mpr h1
    rw [handler]
    simp [e1, e2]

/-- Witness for C4 at method GET. -/
theorem c4_witness :
    ("GET" : String) ≠ "POST" ∧
    handler "GET" .vNull ⟨"", none⟩ =
      ⟨405, corsHeaders, some (errBody "Method not allowed")⟩ :=
  ⟨by decide,
   (c4_method_dispatch .vNull ⟨"", none⟩).2 "GET" (by decide) (by decide)⟩

/-! ### C5 -/

/-- C5: on a valid request, non-JSON generator text yields a 500 tagged
`"Invalid model output (not JSON)"` whose detail is a prefix of the raw text
of length at most 500; JSON text without an `ideas` array of length exactly
3 yields a 500 with the distinct tag `"Invalid model output"`. -/
theorem c5_upstream_errors (rb : JSVal) (gen : GenOut)
    (hval : missingFields (if jsTruthy rb then rb else .vObj []) = false) :
    (gen.parsed = none →
      handler "POST" rb gen = ⟨500, corsHeaders,
        some (errBody2 "Invalid model output (not JSON)" (strTake gen.text 500))⟩ ∧
      (strTake gen.text 500).data.length ≤ 500 ∧
      ∃ rest, gen.text.data = (strTake gen.text 500).data ++ rest) ∧
    (∀ data, gen.parsed = some data →
      (∀ ideas, getField data "ideas" = .vArr ideas → ideas.length ≠ 3) →
      handler "POST" rb gen = ⟨500, corsHeaders,
        some (errBody2 "Invalid model output"
          "Expected `ideas` array with exactly 3 items.")⟩) ∧
    ("Invalid model output" : String) ≠ "Invalid model output (not JSON)" := by
  have hh : handler "POST" rb gen = handlePost rb gen := rfl
  refine ⟨?_, ?_, by decide⟩
  · intro hp
    refine ⟨?_, ?_, ⟨gen.text.data.drop 500, (List.take_append_drop 500 _).symm⟩⟩
    · rw [hh, handlePost]
      simp only [hval, Bool.false_eq_true, if_false, hp]
    · simp only [strTake, List.length_take]
      exact min_le_left _ _
  · intro data hp hbad
    rw [hh, handlePost]
    simp only [hval, Bool.false_eq_true, if_false, hp]
    cases hideas : getField data "ideas" with
    | vArr ideas =>
      have : (ideas.length == 3) = false :=
        beq_eq_false_iff_ne.mpr (hbad ideas hideas)
      simp [this, shapeErr]
    | vUndef => simp [shapeErr]
    | vNull => simp [shapeErr]
    | vBool b => simp [shapeErr]
    | vNum q => simp [shapeErr]
    | vStr s => simp [shapeErr]
    | vObj gs => simp [shapeErr]

/-- Witness for C5: raw text `"not json"` (parse failure), and a parsed
object with no `ideas` array. -/
theorem c5_witness :
    handler "POST" sampleBody ⟨"not json", none⟩ = ⟨500, corsHeaders,
      some (errBody2 "Invalid model output (not JSON)" (strTake "not json" 500))⟩ ∧
    handler "POST" sampleBody ⟨"{}", some (.vObj [])⟩ = ⟨500, corsHeaders,
      some (errBody2 "Invalid model output"
        "Expected `ideas` array with exactly 3 items.")⟩ :=
  ⟨((c5_upstream_errors sampleBody ⟨"not json", none⟩ (by decide)).1 rfl).1,
   (c5_upstream_errors sampleBody ⟨"{}", some (.vObj [])⟩ (by decide)).2.1
     (.vObj []) rfl (fun ideas h => by simp [getField, List.lookup] at h)⟩

/-! ### C9 -/

/-- C9: deduplication never removes an idea (same length, first idea fully
unchanged), changes no field other than a title, and when it does change a
title the new title ends in the literal `" — Alt"` suffix. -/
theorem c9_ensureDistinct_frame (l r : List JSVal) (h : ensureDistinct l = some r) :
    r.length = l.length ∧
    r.getD 0 .vUndef = l.getD 0 .vUndef ∧
    (∀ (k : Nat) (key : String), key ≠ "title" →
      getField (r.getD k .vUndef) key = getField (l.getD k .vUndef) key) ∧
    (∀ k : Nat, r.getD k .vUndef = l.getD k .vUndef ∨
      ∃ p, getField (r.getD k .vUndef) "title" = .vStr (p ++ " — Alt")) := by
  refine ⟨ensureDistinct_length h, ensureDistinct_head h,
    fun k key hk => ensureDistinct_getField_ne h k hk, fun k => ?_⟩
  obtain ⟨n, -, hr⟩ := ensureDistinct_getD h k
  cases n with
  | zero => exact Or.inl (by rw [hr]; rfl)
  | succ m =>
    by_cases hobj : isVObj (l.getD k .vUndef) = true
    · right
      rw [hr]
      refine ⟨(if jsTruthy (getField (iterAlt m (l.getD k JSVal.vUndef)) "title") = true
        then jsToString (getField (iterAlt m (l.getD k JSVal.vUndef)) "title")
        else "Idea"), ?_⟩
      show getField (setTitleAlt (iterAlt m (l.getD k .vUndef))) "title" = _
      simp only [setTitleAlt]
      rw [getField_setField_self' (by rw [isVObj_iterAlt]; exact hobj)]
    · left
      rw [hr, iterAlt_not_obj (by simpa using hobj)]

/-- Concrete input for the C9 witness: a duplicated title and one
non-object (but non-nullish, hence readable) entry. -/
def c9In : List JSVal :=
  [.vObj [("title", .vStr "alpha beta")], .vObj [("title", .vStr "alpha beta")],
   .vNum 7]

/-- The corresponding `ensureDistinct` output. -/
def c9Out : List JSVal :=
  [.vObj [("title", .vStr "alpha beta")], .vObj [("title", .vStr "alpha beta — Alt")],
   .vNum 7]

/-- Witness for C9. -/
theorem c9_witness :
    c9Out.length = c9In.length ∧
    c9Out.getD 0 .vUndef = c9In.getD 0 .vUndef ∧
    (∀ (k : Nat) (key : String), key ≠ "title" →
      getField (c9Out.getD k .vUndef) key = getField (c9In.getD k .vUndef) key) ∧
    (∀ k : Nat, c9Out.getD k .vUndef = c9In.getD k .vUndef ∨
      ∃ p, getField (c9Out.getD k .vUndef) "title" = .vStr (p ++ " — Alt")) :=
  c9_ensureDistinct_frame c9In c9Out (by rfl)

/-! ### Shared plumbing for per-idea response claims -/

theorem pairIdx3_count (k : Nat) :
    ((pairIdx 3).filter (fun ij => ij.2 == k)).length ≤ 2 := by
  have h3 : pairIdx 3 = [(0, 1), (0, 2), (1, 2)] := by decide
  rw [h3]
  rcases Nat.lt_or_ge k 3 with hk | hk
  · interval_cases k <;> decide
  · have e1 : ((1 : Nat) == k) = false := beq_eq_false_iff_ne.mpr (by omega)
    have e2 : ((2 : Nat) == k) = false := beq_eq_false_iff_ne.mpr (by omega)
    simp [List.filter_cons, e1, e2]

/-- On the 200 path, the `k`-th response idea (`k < 3`) is the `k`-th
generator idea clamped and then title-suffixed at most twice. -/
theorem response_idea_spec {rb : JSVal} {gen : GenOut} {r : HttpResponse}
    (h : handler "POST" rb gen = r) (hs : r.status = 200)
    {data : JSVal} {ideas : List JSVal}
    (hparse : gen.parsed = some data) (hideas : getField data "ideas" = .vArr ideas)
    (k : Nat) (hk : k < 3) :
    (responseIdeas r).length = 3 ∧ ideas.length = 3 ∧
    ∃ ck n, clampIdea (ideas.getD k .vUndef) = some ck ∧ n ≤ 2 ∧
      ideaAt r k = iterAlt n ck := by
  obtain ⟨data', ideas', clamped, finals, hp', hi', hlen', hclamp, hfin, -, hri⟩ :=
    handler200_spec h hs
  rw [hparse] at hp'
  injection hp' with hdd
  subst hdd
  rw [hideas] at hi'
  injection hi' with hii
  subst hii
  obtain ⟨hclen, hcpt⟩ := mapClamp_spec hclamp
  have hflen : finals.length = 3 := by
    rw [ensureDistinct_length hfin, hclen, hlen']
  refine ⟨by rw [hri, hflen], hlen', ?_⟩
  obtain ⟨n, hn, hr⟩ := ensureDistinct_getD hfin k
  refine ⟨clamped.getD k .vUndef, n, hcpt k (by omega), ?_, ?_⟩
  · calc n ≤ ((pairIdx clamped.length).filter (fun ij => ij.2 == k)).length := hn
      _ ≤ 2 := by rw [hclen, hlen']; exact pairIdx3_count k
  · rw [ideaAt, hri, hr]

/-! ### C1 -/

/-- C1 (amended): on every 200 response, for every generator idea that is an
object, the response idea's difficulty and worthiness are the numbers
`min(10, max(1, Number(x) || 1))` of the generator's values — hence always
numbers in `[1, 10]` (`15` clamps to `10`, a non-numeric value becomes `1`),
though not necessarily integers. -/
theorem c1_scores_clamped {rb : JSVal} {gen : GenOut} {r : HttpResponse}
    (h : handler "POST" rb gen = r) (hs : r.status = 200)
    {data : JSVal} {ideas : List JSVal}
    (hparse : gen.parsed = some data) (hideas : getField data "ideas" = .vArr ideas)
    (k : Nat) (hk : k < 3)
    (hobj : isVObj (ideas.getD k .vUndef) = true) :
    ratField (ideaAt r k) "difficulty" =
      some (clampScore (getField (ideas.getD k .vUndef) "difficulty")) ∧
    ratField (ideaAt r k) "worthiness" =
      some (clampScore (getField (ideas.getD k .vUndef) "worthiness")) ∧
    (∀ q : ℚ, ratField (ideaAt r k) "difficulty" = some q → 1 ≤ q ∧ q ≤ 10) ∧
    (∀ q : ℚ, ratField (ideaAt r k) "worthiness" = some q → 1 ≤ q ∧ q ≤ 10) := by
  obtain ⟨-, -, ck, n, hck, -, hik⟩ := response_idea_spec h hs hparse hideas k hk
  have hdiff : getField (ideaAt r k) "difficulty" =
      .vNum (clampScore (getField (ideas.getD k .vUndef) "difficulty")) := by
    rw [hik, getField_iterAlt_ne _ _ (by decide),
        clampIdea_getField_ne hck (by decide), clampIdeaCore_difficulty hobj]
  have hworth : getField (ideaAt r k) "worthiness" =
      .vNum (clampScore (getField (ideas.getD k .vUndef) "worthiness")) := by
    rw [hik, getField_iterAlt_ne _ _ (by decide),
        clampIdea_getField_ne hck (by decide), clampIdeaCore_worthiness hobj]
  refine ⟨by rw [ratField, hdiff], by rw [ratField, hworth], ?_, ?_⟩
  · intro q hq
    rw [ratField, hdiff] at hq
    simp only [Option.some.injEq] at hq
    rw [← hq]
    exact ⟨clampScore_ge_one _, clampScore_le_ten _⟩
  · intro q hq
    rw [ratField, hworth] at hq
    simp only [Option.some.injEq] at hq
    rw [← hq]
    exact ⟨clampScore_ge_one _, clampScore_le_ten _⟩

/-- First generator idea for the C1 witness: difficulty `15`, worthiness
`"abc"`. -/
def c1wI1 : JSVal :=
  .vObj [("title", .vStr ""), ("difficulty", .vNum 15), ("worthiness", .vStr "abc")]

/-- A minimal filler idea. -/
def blankIdea : JSVal := .vObj [("title", .vStr "")]

/-- Generator output for the C1 witness. -/
def c1wGen : GenOut := gen3 c1wI1 blankIdea blankIdea

/-- Witness for C1: `15` clamps to `10`, `"abc"` becomes `1`. -/
theorem c1_witness :
    ratField (ideaAt (handler "POST" sampleBody c1wGen) 0) "difficulty" =
      some (clampScore (.vNum 15)) ∧
    ratField (ideaAt (handler "POST" sampleBody c1wGen) 0) "worthiness" =
      some (clampScore (.vStr "abc")) ∧
    clampScore (.vNum 15) = 10 ∧ clampScore (.vStr "abc") = 1 :=
  ⟨(@c1_scores_clamped sampleBody c1wGen (handler "POST" sampleBody c1wGen) rfl
      (by rfl) (.vObj [("ideas", .vArr [c1wI1, blankIdea, blankIdea])])
      [c1wI1, blankIdea, blankIdea] rfl rfl 0 (by decide) (by decide)).1,
   (@c1_scores_clamped sampleBody c1wGen (handler "POST" sampleBody c1wGen) rfl
      (by rfl) (.vObj [("ideas", .vArr [c1wI1, blankIdea, blankIdea])])
      [c1wI1, blankIdea, blankIdea] rfl rfl 0 (by decide) (by decide)).2.1,
   by decide, by decide⟩

/-- Generator output refuting the integrality part of C1: difficulty
`5.5`. -/
def c1cxGen : GenOut := gen3
  (.vObj [("title", .vStr ""), ("difficulty", .vNum (mkRat 11 2))])
  (.vObj [("title", .vStr "")]) (.vObj [("title", .vStr "")])

/-- Counterexample to C1 as stated: a generator difficulty of `5.5` passes
the shape check, the handler answers 200, and the response difficulty is
`5.5` — not an integer. -/
theorem c1_counterexample :
    (handler "POST" sampleBody c1cxGen).status = 200 ∧
    ratField (ideaAt (handler "POST" sampleBody c1cxGen) 0) "difficulty" =
      some (mkRat 11 2) ∧
    ∀ z : ℤ, mkRat 11 2 ≠ (z : ℚ) := by
  refine ⟨by rfl, by decide, ?_⟩
  intro z hz
  have hden : (mkRat 11 2).den = 1 := by rw [hz]; exact Rat.den_intCast z
  exact absurd hden (by decide)

/-! ### C2 -/

/-- C2 (amended): every 200 response carries exactly 3 ideas; for each
object idea the `sections` and `firstThreeSteps` arrays are truncated to at
most 10 resp. 3 entries — exactly 10 resp. 3 only when the generator
supplied at least that many (they are capped, never padded). -/
theorem c2_shape {rb : JSVal} {gen : GenOut} {r : HttpResponse}
    (h : handler "POST" rb gen = r) (hs : r.status = 200)
    {data : JSVal} {ideas : List JSVal}
    (hparse : gen.parsed = some data) (hideas : getField data "ideas" = .vArr ideas) :
    (responseIdeas r).length = 3 ∧
    ∀ k : Nat, k < 3 → isVObj (ideas.getD k .vUndef) = true →
      (∀ secs : List JSVal, getField (ideas.getD k .vUndef) "sections" = .vArr secs →
        arrLenField (ideaAt r k) "sections" = some (min 10 secs.length)) ∧
      (∀ steps : List JSVal,
        getField (ideas.getD k .vUndef) "firstThreeSteps" = .vArr steps →
        arrLenField (ideaAt r k) "firstThreeSteps" = some (min 3 steps.length)) := by
  have hlen := (response_idea_spec h hs hparse hideas 0 (by omega)).1
  refine ⟨hlen, ?_⟩
  intro k hk hobj
  obtain ⟨-, -, ck, n, hck, -, hik⟩ := response_idea_spec h hs hparse hideas k hk
  constructor
  · intro secs hsecs
    have : getField (ideaAt r k) "sections" =
        .vArr ((secs.map clampSection).take 10) := by
      rw [hik, getField_iterAlt_ne _ _ (by decide),
          clampIdea_getField_ne hck (by decide), clampIdeaCore_sections hobj hsecs]
    rw [arrLenField, this]
    simp [List.length_take, List.length_map]
  · intro steps hsteps
    have : getField (ideaAt r k) "firstThreeSteps" =
        .vArr ((steps.map (fun s => .vStr (strTake (sanStr s) 140))).take 3) := by
      rw [hik, getField_iterAlt_ne _ _ (by decide),
          clampIdea_getField_ne hck (by decide), clampIdeaCore_steps hobj hsteps]
    rw [arrLenField, this]
    simp [List.length_take, List.length_map]

/-- Generator idea with ten empty sections and three steps for the C2
witness. -/
def c2wI1 : JSVal :=
  .vObj [("title", .vStr ""),
         ("sections", .vArr [.vObj [], .vObj [], .vObj [], .vObj [], .vObj [],
                             .vObj [], .vObj [], .vObj [], .vObj [], .vObj []]),
         ("firstThreeSteps", .vArr [.vStr "a", .vStr "b", .vStr "c"])]

/-- Generator output for the C2 witness. -/
def c2wGen : GenOut := gen3 c2wI1 blankIdea blankIdea

/-- Witness for C2: a conforming generator output keeps exactly 3 ideas,
10 sections and 3 steps. -/
theorem c2_witness :
    (responseIdeas (handler "POST" sampleBody c2wGen)).length = 3 ∧
    arrLenField (ideaAt (handler "POST" sampleBody c2wGen) 0) "sections" =
      some (min 10 10) ∧
    arrLenField (ideaAt (handler "POST" sampleBody c2wGen) 0) "firstThreeSteps" =
      some (min 3 3) := by
  have hc2 := @c2_shape sampleBody c2wGen (handler "POST" sampleBody c2wGen) rfl
    (by rfl) (.vObj [("ideas", .vArr [c2wI1, blankIdea, blankIdea])])
    [c2wI1, blankIdea, blankIdea] rfl rfl
  obtain ⟨h3, hrest⟩ := hc2
  obtain ⟨hsec, hstep⟩ := hrest 0 (by omega) (by decide)
  exact ⟨h3,
    hsec [.vObj [], .vObj [], .vObj [], .vObj [], .vObj [], .vObj [], .vObj [],
          .vObj [], .vObj [], .vObj []] (by rfl),
    hstep [.vStr "a", .vStr "b", .vStr "c"] (by rfl)⟩

/-- Generator output with empty `sections` and `firstThreeSteps` arrays. -/
def c2cxGen : GenOut := gen3
  (.vObj [("title", .vStr ""), ("sections", .vArr []), ("firstThreeSteps", .vArr [])])
  blankIdea blankIdea

/-- Counterexample to C2 as stated: a generator idea with zero sections and
zero steps still produces a 200 whose first idea has 0 sections and 0
firstThreeSteps entries — the clamp caps but never pads. -/
theorem c2_counterexample :
    (handler "POST" sampleBody c2cxGen).status = 200 ∧
    arrLenField (ideaAt (handler "POST" sampleBody c2cxGen) 0) "sections" = some 0 ∧
    arrLenField (ideaAt (handler "POST" sampleBody c2cxGen) 0) "firstThreeSteps" =
      some 0 :=
  ⟨by rfl, by decide, by decide⟩

/-! ### C10: the insights/tooling chain -/

theorem looseNull_of_vObj {o : JSVal} (h : isVObj o = true) : looseNull o = false := by
  cases o <;> simp_all [isVObj, looseNull]

theorem isVObj_clampToolingStep (o : JSVal) :
    isVObj (clampToolingStep o) = isVObj o := by
  unfold clampToolingStep
  cases hs : getField o "tooling" <;> simp [isVObj_setField]

theorem getField_clampToolingStep_ne (o : JSVal) {k : String} (hk : k ≠ "tooling") :
    getField (clampToolingStep o) k = getField o k := by
  unfold clampToolingStep
  cases hs : getField o "tooling" <;> simp [getField_setField_ne _ _ hk]

theorem clampToolingStep_arr {o : JSVal} (hobj : isVObj o = true) {ts : List JSVal}
    (hts : getField o "tooling" = .vArr ts) :
    getField (clampToolingStep o) "tooling" = .vArr ((ts.map clampTool).take 6) := by
  unfold clampToolingStep
  rw [hts]
  exact getField_setField_self' hobj _ _

theorem getField_clampKpisStep_ne (o : JSVal) {k : String} (hk : k ≠ "kpis") :
    getField (clampKpisStep o) k = getField o k := by
  unfold clampKpisStep
  by_cases ht : jsTruthy (getField o "kpis") = true <;>
    simp [ht, getField_setField_ne _ _ hk]

theorem clampValidation_some {o o' : JSVal} (h : clampValidation o = some o') :
    o' = o ∨ ∃ ys, o' = setField o "validation" (.vArr ys) := by
  unfold clampValidation at h
  split at h
  · split at h
    · cases h
      exact Or.inr ⟨_, rfl⟩
    · cases h
  · cases h
    exact Or.inl rfl

theorem clampRisks_some {o o' : JSVal} (h : clampRisks o = some o') :
    o' = o ∨ ∃ ys, o' = setField o "risks" (.vArr ys) := by
  unfold clampRisks at h
  split at h
  · split at h
    · cases h
      exact Or.inr ⟨_, rfl⟩
    · cases h
  · cases h
    exact Or.inl rfl

theorem getField_clampValidation_ne {o o' : JSVal} (h : clampValidation o = some o')
    {k : String} (hk : k ≠ "validation") : getField o' k = getField o k := by
  rcases clampValidation_some h with rfl | ⟨ys, rfl⟩
  · rfl
  · rw [getField_setField_ne _ _ hk]

theorem getField_clampRisks_ne {o o' : JSVal} (h : clampRisks o = some o')
    {k : String} (hk : k ≠ "risks") : getField o' k = getField o k := by
  rcases clampRisks_some h with rfl | ⟨ys, rfl⟩
  · rfl
  · rw [getField_setField_ne _ _ hk]

theorem isVObj_clampValidation {o o' : JSVal} (h : clampValidation o = some o') :
    isVObj o' = isVObj o := by
  rcases clampValidation_some h with rfl | ⟨ys, rfl⟩
  · rfl
  · rw [isVObj_setField]

theorem isVObj_clampRisks {o o' : JSVal} (h : clampRisks o = some o') :
    isVObj o' = isVObj o := by
  rcases clampRisks_some h with rfl | ⟨ys, rfl⟩
  · rfl
  · rw [isVObj_setField]

theorem isVObj_clampNumbersStep (o : JSVal) :
    isVObj (clampNumbersStep o) = isVObj o := by
  unfold clampNumbersStep
  by_cases ht : jsTruthy (getField o "numbers") = true <;> simp [ht, isVObj_setField]

theorem getField_clampNumbersStep_ne (o : JSVal) {k : String} (hk : k ≠ "numbers") :
    getField (clampNumbersStep o) k = getField o k := by
  unfold clampNumbersStep
  by_cases ht : jsTruthy (getField o "numbers") = true <;>
    simp [ht, getField_setField_ne _ _ hk]

/-- Through `clampInsights`, a tooling array is rewritten entrywise by
`clampTool` and capped at 6 entries. -/
theorem clampInsights_tooling {ins ins' : JSVal} (h : clampInsights ins = some ins')
    {ts : List JSVal} (hts : getField ins "tooling" = .vArr ts) :
    getField ins' "tooling" = .vArr ((ts.map clampTool).take 6) := by
  obtain ⟨fs, rfl⟩ : ∃ fs, ins = .vObj fs := by
    cases ins <;> simp [getField] at hts ⊢
  unfold clampInsights at h
  cases hval : clampValidation (clampNumbersStep (clampFeasStep (.vObj fs))) with
  | none => rw [hval] at h; cases h
  | some i3 =>
  rw [hval] at h
  have h2 : (match clampRisks i3 with
      | none => none
      | some i4 => some (clampKpisStep (clampToolingStep i4))) = some ins' := h
  clear h
  cases hrisks : clampRisks i3 with
  | none => rw [hrisks] at h2; cases h2
  | some i4 =>
  rw [hrisks] at h2
  cases h2
  have hobj4 : isVObj i4 = true := by
    rw [isVObj_clampRisks hrisks, isVObj_clampValidation hval,
        isVObj_clampNumbersStep, clampFeasStep, isVObj_setField]
    rfl
  have hts4 : getField i4 "tooling" = .vArr ts := by
    rw [getField_clampRisks_ne hrisks (by decide),
        getField_clampValidation_ne hval (by decide),
        getField_clampNumbersStep_ne _ (by decide), clampFeasStep,
        getField_setField_ne _ _ (by decide : ("tooling" : String) ≠ "feasibility"), hts]
  rw [getField_clampKpisStep_ne _ (by decide), clampToolingStep_arr hobj4 hts4]

/-- A successful `clampIdea` on an object idea with truthy insights rewrote
the insights field through `clampInsights`. -/
theorem clampIdea_insights {o w : JSVal} (h : clampIdea o = some w)
    (hobj : isVObj o = true)
    (ht : jsTruthy (getField o "insights") = true) :
    ∃ ins', clampInsights (getField o "insights") = some ins' ∧
      getField w "insights" = ins' := by
  unfold clampIdea at h
  rw [looseNull_of_vObj hobj] at h
  simp only [Bool.false_eq_true, if_false, clampIdeaCore_insights, ht, if_true] at h
  cases hci : clampInsights (getField o "insights") with
  | none => rw [hci] at h; cases h
  | some ins' =>
    rw [hci] at h
    simp only [Option.map_some', Option.some.injEq] at h
    refine ⟨ins', rfl, ?_⟩
    rw [← h]
    exact getField_setField_self' (by rw [isVObj_clampIdeaCore]; exact hobj) _ _

theorem clampTool_estMonthly (t : JSVal) :
    getField (clampTool t) "estMonthly" =
      .vNum (match getField t "estMonthly" with
             | .vNum q => round2 q
             | _ => 0) := by
  rfl

/-! ### C10 -/

/-- C10: on every 200 response, a generator idea (object) whose truthy
insights carry a tooling array has that array rewritten entrywise and
capped at 6; every rewritten entry's `estMonthly` is a number — the
generator's value rounded to 2 decimals when it was a number, and `0`
otherwise. -/
theorem c10_tooling_rounded {rb : JSVal} {gen : GenOut} {r : HttpResponse}
    (h : handler "POST" rb gen = r) (hs : r.status = 200)
    {data : JSVal} {ideas : List JSVal}
    (hparse : gen.parsed = some data) (hideas : getField data "ideas" = .vArr ideas)
    (k : Nat) (hk : k < 3)
    (hobj : isVObj (ideas.getD k .vUndef) = true)
    {ts : List JSVal}
    (hts : getField (getField (ideas.getD k .vUndef) "insights") "tooling" = .vArr ts) :
    getField (getField (ideaAt r k) "insights") "tooling" =
      .vArr ((ts.map clampTool).take 6) ∧
    (∀ t0 : JSVal, ∃ q' : ℚ,
      getField (clampTool t0) "estMonthly" = .vNum q' ∧
      ((∃ q0 : ℚ, getField t0 "estMonthly" = .vNum q0 ∧ q' = round2 q0) ∨
       ((∀ q0 : ℚ, getField t0 "estMonthly" ≠ .vNum q0) ∧ q' = 0))) := by
  obtain ⟨-, -, ck, n, hck, -, hik⟩ := response_idea_spec h hs hparse hideas k hk
  have htruthy : jsTruthy (getField (ideas.getD k .vUndef) "insights") = true := by
    cases hins : getField (ideas.getD k .vUndef) "insights" with
    | vObj gs => rfl
    | vUndef => rw [hins] at hts; simp [getField] at hts
    | vNull => rw [hins] at hts; simp [getField] at hts
    | vBool b => rw [hins] at hts; simp [getField] at hts
    | vNum q => rw [hins] at hts; simp [getField] at hts
    | vStr s => rw [hins] at hts; simp [getField] at hts
    | vArr l => rw [hins] at hts; simp [getField] at hts
  obtain ⟨ins', hci, hwi⟩ := clampIdea_insights hck hobj htruthy
  have hresp : getField (ideaAt r k) "insights" = ins' := by
    rw [hik, getField_iterAlt_ne _ _ (by decide), hwi]
  refine ⟨by rw [hresp, clampInsights_tooling hci hts], ?_⟩
  intro t0
  cases hm : getField t0 "estMonthly" with
  | vNum q0 =>
    exact ⟨round2 q0, by rw [clampTool_estMonthly, hm], Or.inl ⟨q0, rfl, rfl⟩⟩
  | vUndef =>
    refine ⟨0, by rw [clampTool_estMonthly, hm], Or.inr ⟨?_, rfl⟩⟩
    intro q0 hq
    cases hq
  | vNull =>
    refine ⟨0, by rw [clampTool_estMonthly, hm], Or.inr ⟨?_, rfl⟩⟩
    intro q0 hq
    cases hq
  | vBool b =>
    refine ⟨0, by rw [clampTool_estMonthly, hm], Or.inr ⟨?_, rfl⟩⟩
    intro q0 hq
    cases hq
  | vStr s =>
    refine ⟨0, by rw [clampTool_estMonthly, hm], Or.inr ⟨?_, rfl⟩⟩
    intro q0 hq
    cases hq
  | vArr l =>
    refine ⟨0, by rw [clampTool_estMonthly, hm], Or.inr ⟨?_, rfl⟩⟩
    intro q0 hq
    cases hq
  | vObj gs =>
    refine ⟨0, by rw [clampTool_estMonthly, hm], Or.inr ⟨?_, rfl⟩⟩
    intro q0 hq
    cases hq

/-- Tooling array for the C10 witness: one entry with a non-numeric
`estMonthly`, one with none at all. -/
def c10Tools : List JSVal :=
  [.vObj [("estMonthly", .vStr "n/a")], .vObj [("name", .vStr "Canva")]]

/-- First generator idea for the C10 witness. -/
def c10wI1 : JSVal :=
  .vObj [("title", .vStr ""), ("insights", .vObj [("tooling", .vArr c10Tools)])]

/-- Generator output for the C10 witness. -/
def c10wGen : GenOut := gen3 c10wI1 blankIdea blankIdea

/-- Witness for C10. -/
theorem c10_witness :
    getField (getField (ideaAt (handler "POST" sampleBody c10wGen) 0) "insights")
        "tooling" = .vArr ((c10Tools.map clampTool).take 6) ∧
    (∀ t0 : JSVal, ∃ q' : ℚ,
      getField (clampTool t0) "estMonthly" = .vNum q' ∧
      ((∃ q0 : ℚ, getField t0 "estMonthly" = .vNum q0 ∧ q' = round2 q0) ∨
       ((∀ q0 : ℚ, getField t0 "estMonthly" ≠ .vNum q0) ∧ q' = 0))) :=
  @c10_tooling_rounded sampleBody c10wGen (handler "POST" sampleBody c10wGen) rfl
    (by rfl) (.vObj [("ideas", .vArr [c10wI1, blankIdea, blankIdea])])
    [c10wI1, blankIdea, blankIdea] rfl rfl 0 (by decide) (by decide) c10Tools rfl

/-! ### C6: character-level facts about `sanitizeText` -/

/-- Banned-pattern removal only deletes characters. -/
theorem mem_removeAllFuel :
    ∀ (f : Nat) (p : Pat) (cs : List Char) (c : Char),
      c ∈ removeAllFuel f p cs → c ∈ cs := by
  intro f
  induction f with
  | zero =>
    intro p cs c h
    simpa [removeAllFuel] using h
  | succ f ih =>
    intro p cs c h
    cases cs with
    | nil => simpa [removeAllFuel] using h
    | cons a rest =>
      cases hm : matchPat p (a :: rest) with
      | none =>
        rw [removeAllFuel, hm] at h
        rcases List.mem_cons.mp h with rfl | h
        · exact List.mem_cons_self ..
        · exact List.mem_cons_of_mem _ (ih p rest c h)
      | some nn =>
        cases nn with
        | zero =>
          rw [removeAllFuel, hm] at h
          rcases List.mem_cons.mp h with rfl | h
          · exact List.mem_cons_self ..
          · exact List.mem_cons_of_mem _ (ih p rest c h)
        | succ n =>
          rw [removeAllFuel, hm] at h
          exact List.mem_of_mem_drop (ih p _ c h)

theorem mem_removeAll (p : Pat) (cs : List Char) (c : Char)
    (h : c ∈ removeAll p cs) : c ∈ cs :=
  mem_removeAllFuel _ p cs c h

theorem mem_foldBanned :
    ∀ (ps : List Pat) (cs : List Char) (c : Char),
      c ∈ ps.foldl (fun acc p => removeAll p acc) cs → c ∈ cs := by
  intro ps
  induction ps with
  | nil =>
    intro cs c h
    simpa using h
  | cons p ps ih =>
    intro cs c h
    rw [List.foldl_cons] at h
    exact mem_removeAll p cs c (ih _ c h)

/-- Whitespace collapsing only deletes characters or introduces spaces. -/
theorem mem_collapseWs :
    ∀ (cs : List Char) (c : Char), c ∈ collapseWs cs → c = ' ' ∨ c ∈ cs
  | [], c, h => by simpa [collapseWs] using h
  | [d], c, h => by
    by_cases hw : isJsWs d = true
    · simp [collapseWs, hw] at h
      exact Or.inl h
    · simp [collapseWs, hw] at h
      exact Or.inr (by simp [h])
  | a :: b :: rest, c, h => by
    by_cases h1 : isJsWs a = true <;> by_cases h2 : isJsWs b = true
    · rw [collapseWs] at h
      simp only [h1, h2, Bool.and_self, if_true] at h
      rcases mem_collapseWs (b :: rest) c h with hc | hc
      · exact Or.inl hc
      · exact Or.inr (List.mem_cons_of_mem _ hc)
    · rw [collapseWs] at h
      simp only [h1, h2, Bool.and_false, Bool.false_eq_true, if_false, if_true] at h
      rcases List.mem_cons.mp h with rfl | h
      · exact Or.inl rfl
      · rcases mem_collapseWs (b :: rest) c h with hc | hc
        · exact Or.inl hc
        · exact Or.inr (List.mem_cons_of_mem _ hc)
    · rw [collapseWs] at h
      simp only [h1, h2, Bool.false_and, Bool.false_eq_true, if_false] at h
      rcases List.mem_cons.mp h with rfl | h
      · exact Or.inr (List.mem_cons_self ..)
      · rcases mem_collapseWs (b :: rest) c h with hc | hc
        · exact Or.inl hc
        · exact Or.inr (List.mem_cons_of_mem _ hc)
    · rw [collapseWs] at h
      simp only [h1, h2, Bool.false_and, Bool.false_eq_true, if_false] at h
      rcases List.mem_cons.mp h with rfl | h
      · exact Or.inr (List.mem_cons_self ..)
      · rcases mem_collapseWs (b :: rest) c h with hc | hc
        · exact Or.inl hc
        · exact Or.inr (List.mem_cons_of_mem _ hc)

theorem mem_trimWs (cs : List Char) (c : Char) (h : c ∈ trimWs cs) : c ∈ cs := by
  rw [trimWs] at h
  rw [List.mem_reverse] at h
  have h2 := (List.dropWhile_sublist _).mem h
  rw [List.mem_reverse] at h2
  exact (List.dropWhile_sublist _).mem h2

theorem mem_sentSplitFuel :
    ∀ (f : Nat) (cs acc : List Char) (part : List Char) (c : Char),
      part ∈ sentSplitFuel f cs acc → c ∈ part → c ∈ cs ∨ c ∈ acc := by
  intro f
  induction f with
  | zero =>
    intro cs acc part c hp hc
    simp only [sentSplitFuel, List.mem_singleton] at hp
    subst hp
    rcases List.mem_append.mp hc with h | h
    · exact Or.inr (List.mem_reverse.mp h)
    · exact Or.inl h
  | succ f ih =>
    intro cs acc part c hp hc
    cases cs with
    | nil =>
      simp only [sentSplitFuel, List.mem_singleton] at hp
      subst hp
      exact Or.inr (List.mem_reverse.mp hc)
    | cons a rest =>
      rw [sentSplitFuel] at hp
      by_cases hcond : (isJsWs a && acc.head? == some '.') = true
      · rw [if_pos hcond] at hp
        rcases List.mem_cons.mp hp with rfl | hp
        · exact Or.inr (List.mem_reverse.mp hc)
        · rcases ih _ _ _ c hp hc with h | h
          · exact Or.inl (List.mem_cons_of_mem _
              ((List.dropWhile_sublist _).mem h))
          · simp at h
      · rw [if_neg hcond] at hp
        rcases ih _ _ _ c hp hc with h | h
        · exact Or.inl (List.mem_cons_of_mem _ h)
        · rcases List.mem_cons.mp h with rfl | h
          · exact Or.inl (List.mem_cons_self ..)
          · exact Or.inr h

theorem mem_joinSp :
    ∀ (ps : List (List Char)) (c : Char),
      c ∈ joinSp ps → c = ' ' ∨ ∃ p ∈ ps, c ∈ p
  | [], c, h => by simpa [joinSp] using h
  | [p], c, h => by
    rw [joinSp] at h
    exact Or.inr ⟨p, List.mem_singleton_self p, h⟩
  | p :: q :: rest, c, h => by
    rw [joinSp] at h
    rcases List.mem_append.mp h with h | h
    · exact Or.inr ⟨p, List.mem_cons_self .., h⟩
    · rcases List.mem_cons.mp h with rfl | h
      · exact Or.inl rfl
      · rcases mem_joinSp (q :: rest) c h with hc | ⟨p', hp', hc⟩
        · exact Or.inl hc
        · exact Or.inr ⟨p', List.mem_cons_of_mem _ hp', hc⟩

/-- Unfolding `sanitizeText` on a non-empty input. -/
theorem sanitizeText_ne_empty (s : String) (hs : (s == "") = false) :
    (sanitizeText s).data =
      trimWs (joinSp ((sentSplit (bannedPats.foldl (fun acc p => removeAll p acc)
        (trimWs (collapseWs (s.data.filter (fun c => !isEmojiChar c)))))).take 3)) := by
  rw [sanitizeText, if_neg (by simp [hs])]

/-- No pictographic character survives `sanitizeText`. -/
theorem sanitizeText_no_emoji (s : String) :
    ∀ c ∈ (sanitizeText s).data, isEmojiChar c = false := by
  intro c hc
  by_cases hs : s = ""
  · subst hs
    simp [sanitizeText] at hc
  · rw [sanitizeText_ne_empty s (beq_eq_false_iff_ne.mpr hs)] at hc
    have hc1 := mem_trimWs _ _ hc
    rcases mem_joinSp _ _ hc1 with rfl | ⟨part, hpart, hcp⟩
    · decide
    · have hpart' := List.mem_of_mem_take hpart
      rcases mem_sentSplitFuel _ _ _ _ _ hpart' hcp with h2 | h2
      · have h3 := mem_foldBanned _ _ _ h2
        have h4 := mem_trimWs _ _ h3
        rcases mem_collapseWs _ _ h4 with rfl | h5
        · decide
        · have hfl := (List.mem_filter.mp h5).2
          cases he : isEmojiChar c
          · rfl
          · rw [he] at hfl
            simp at hfl
      · simp at h2

/-! ### C6: claim theorems -/

/-- The banned phrases as plain strings (spec-side view of `bannedPats`). -/
def bannedPhraseStrings : List String :=
  ["guaranteed", "effortless", "overnight", "get rich", "no risk",
   "passive income", "100% success", "secret hack", "viral overnight"]

/-- C6 (amended): sanitized response fields never contain pictographic
characters; banned phrases are removed by one left-to-right pass per
pattern, which eliminates them on inputs like the spec's example — but (see
the counterexample) the single pass can splice a new banned occurrence out
of the surrounding characters. -/
theorem c6_sanitization {rb : JSVal} {gen : GenOut} {r : HttpResponse}
    (h : handler "POST" rb gen = r) (hs : r.status = 200)
    {data : JSVal} {ideas : List JSVal}
    (hparse : gen.parsed = some data) (hideas : getField data "ideas" = .vArr ideas)
    (k : Nat) (hk : k < 3)
    (hobj : isVObj (ideas.getD k .vUndef) = true) :
    (∀ t : String, strField (ideaAt r k) "tagline" = some t →
      ∀ c ∈ t.data, isEmojiChar c = false) ∧
    (∀ s : String, ∀ c ∈ (sanitizeText s).data, isEmojiChar c = false) ∧
    (∀ phrase ∈ bannedPhraseStrings,
      containsPhrase phrase
        (sanitizeText "This is guaranteed to work overnight!") = false) := by
  obtain ⟨-, -, ck, n, hck, -, hik⟩ := response_idea_spec h hs hparse hideas k hk
  refine ⟨?_, sanitizeText_no_emoji, by decide⟩
  intro t ht c hc
  have htag : getField (ideaAt r k) "tagline" =
      .vStr (strTake (sanStr (getField (ideas.getD k .vUndef) "tagline")) 120) := by
    rw [hik, getField_iterAlt_ne _ _ (by decide),
        clampIdea_getField_ne hck (by decide), clampIdeaCore_tagline hobj]
  rw [strField, htag] at ht
  simp only [Option.some.injEq] at ht
  subst ht
  have hc' : c ∈ (sanStr (getField (ideas.getD k .vUndef) "tagline")).data :=
    @List.mem_of_mem_take Char 120 c ((sanStr _).data) hc
  exact sanitizeText_no_emoji _ c hc'

/-- Generator idea for the C6 witness (plain text fields). -/
def c6wGen : GenOut :=
  gen3 (.vObj [("title", .vStr ""), ("tagline", .vStr "Sell prints online.")])
    blankIdea blankIdea

/-- Witness for C6. -/
theorem c6_witness :
    (∀ t : String,
      strField (ideaAt (handler "POST" sampleBody c6wGen) 0) "tagline" = some t →
      ∀ c ∈ t.data, isEmojiChar c = false) ∧
    (∀ s : String, ∀ c ∈ (sanitizeText s).data, isEmojiChar c = false) ∧
    (∀ phrase ∈ bannedPhraseStrings,
      containsPhrase phrase
        (sanitizeText "This is guaranteed to work overnight!") = false) :=
  @c6_sanitization sampleBody c6wGen (handler "POST" sampleBody c6wGen) rfl (by rfl)
    (.vObj [("ideas", .vArr [.vObj [("title", .vStr ""),
      ("tagline", .vStr "Sell prints online.")], blankIdea, blankIdea])])
    [.vObj [("title", .vStr ""), ("tagline", .vStr "Sell prints online.")],
      blankIdea, blankIdea] rfl rfl 0 (by decide) (by decide)

/-- Generator output whose tagline splices to a banned phrase after one
removal pass. -/
def c6cxGen : GenOut := gen3
  (.vObj [("title", .vStr ""), ("tagline", .vStr "overovernightnight")])
  blankIdea blankIdea

/-- Counterexample to C6 as stated: removing the inner `"overnight"` from
`"overovernightnight"` splices the surrounding characters into a new
`"overnight"`, which reaches the 200 response's tagline. -/
theorem c6_counterexample :
    (handler "POST" sampleBody c6cxGen).status = 200 ∧
    strField (ideaAt (handler "POST" sampleBody c6cxGen) 0) "tagline" =
      some "overnight" ∧
    ("overnight" : String) ∈ bannedPhraseStrings ∧
    containsPhrase "overnight"
      ((strField (ideaAt (handler "POST" sampleBody c6cxGen) 0) "tagline").getD "")
      = true :=
  ⟨by rfl, by decide, by decide, by decide⟩

/-! ### C8: length caps -/

theorem titleLen_iterAlt :
    ∀ (n : Nat) {x : JSVal}, isVObj x = true →
      ∀ {t : String}, getField x "title" = .vStr t →
      ∃ u : String, getField (iterAlt n x) "title" = .vStr u ∧
        u.length ≤ max t.length 4 + 6 * n := by
  intro n
  induction n with
  | zero =>
    intro x hx t ht
    exact ⟨t, ht, by omega⟩
  | succ n ih =>
    intro x hx t ht
    obtain ⟨u, hu, hlen⟩ := ih hx ht
    have hxobj : isVObj (iterAlt n x) = true := by rw [isVObj_iterAlt]; exact hx
    refine ⟨(if jsTruthy (.vStr u) = true then jsToString (.vStr u) else "Idea")
      ++ " — Alt", ?_, ?_⟩
    · show getField (setTitleAlt (iterAlt n x)) "title" = _
      simp only [setTitleAlt, hu]
      rw [getField_setField_self' hxobj]
    · rw [String.length_append]
      have h6 : (" — Alt" : String).length = 6 := by decide
      have hbase :
          (if jsTruthy (.vStr u) = true then jsToString (.vStr u) else "Idea").length ≤
            max t.length 4 + 6 * n := by
        by_cases hu0 : jsTruthy (JSVal.vStr u) = true
        · rw [if_pos hu0]
          exact hlen
        · rw [if_neg hu0]
          have : ("Idea" : String).length = 4 := by decide
          omega
      omega

theorem clampIdeaCore_sections_not_arr {o : JSVal}
    (hna : ∀ l : List JSVal, getField o "sections" ≠ .vArr l) :
    getField (clampIdeaCore o) "sections" = getField o "sections" := by
  unfold clampIdeaCore
  rw [getField_clampStepsStep_ne _ (by decide)]
  unfold clampSectionsStep
  rw [clampScalarSteps_ne _ (by decide) (by decide) (by decide) (by decide)]
  cases hsec : getField o "sections" with
  | vArr l => exact absurd hsec (hna l)
  | vUndef =>
    show getField (clampScalarSteps o) "sections" = _
    rw [clampScalarSteps_ne _ (by decide) (by decide) (by decide) (by decide)]
    exact hsec
  | vNull =>
    show getField (clampScalarSteps o) "sections" = _
    rw [clampScalarSteps_ne _ (by decide) (by decide) (by decide) (by decide)]
    exact hsec
  | vBool b =>
    show getField (clampScalarSteps o) "sections" = _
    rw [clampScalarSteps_ne _ (by decide) (by decide) (by decide) (by decide)]
    exact hsec
  | vNum q =>
    show getField (clampScalarSteps o) "sections" = _
    rw [clampScalarSteps_ne _ (by decide) (by decide) (by decide) (by decide)]
    exact hsec
  | vStr s =>
    show getField (clampScalarSteps o) "sections" = _
    rw [clampScalarSteps_ne _ (by decide) (by decide) (by decide) (by decide)]
    exact hsec
  | vObj gs =>
    show getField (clampScalarSteps o) "sections" = _
    rw [clampScalarSteps_ne _ (by decide) (by decide) (by decide) (by decide)]
    exact hsec

/-- C8 (amended): in every 200 response, for every object idea, the tagline
is at most 120 characters and every section body at most 550; the title is
at most 70 characters when deduplication left it alone, and at most 82 in
general — the dedup step appends the 6-character `" — Alt"` suffix after
the 70-character clamp, at most twice per idea. -/
theorem c8_length_caps {rb : JSVal} {gen : GenOut} {r : HttpResponse}
    (h : handler "POST" rb gen = r) (hs : r.status = 200)
    {data : JSVal} {ideas : List JSVal}
    (hparse : gen.parsed = some data) (hideas : getField data "ideas" = .vArr ideas)
    (k : Nat) (hk : k < 3)
    (hobj : isVObj (ideas.getD k .vUndef) = true) :
    (∃ t, strField (ideaAt r k) "title" = some t ∧ t.length ≤ 82) ∧
    (∃ tg, strField (ideaAt r k) "tagline" = some tg ∧ tg.length ≤ 120) ∧
    (∀ secs : List JSVal, getField (ideaAt r k) "sections" = .vArr secs →
      ∀ sec ∈ secs, ∃ b, strField sec "body" = some b ∧ b.length ≤ 550) := by
  obtain ⟨-, -, ck, n, hck, hn2, hik⟩ := response_idea_spec h hs hparse hideas k hk
  have hckobj : isVObj ck = true := by rw [clampIdea_isVObj hck]; exact hobj
  have htitle : getField ck "title" =
      .vStr (strTake (sanStr (getField (ideas.getD k .vUndef) "title")) 70) := by
    rw [clampIdea_getField_ne hck (by decide), clampIdeaCore_title hobj]
  refine ⟨?_, ?_, ?_⟩
  · obtain ⟨u, hu, hulen⟩ := titleLen_iterAlt n hckobj htitle
    refine ⟨u, by rw [strField, hik, hu], ?_⟩
    have h70 : (strTake (sanStr (getField (ideas.getD k .vUndef) "title")) 70).length
        ≤ 70 := by
      show (List.take 70 _).length ≤ 70
      rw [List.length_take]
      omega
    have : max (strTake (sanStr (getField (ideas.getD k .vUndef) "title")) 70).length 4
        ≤ 70 := by omega
    omega
  · refine ⟨strTake (sanStr (getField (ideas.getD k .vUndef) "tagline")) 120, ?_, ?_⟩
    · rw [strField, hik, getField_iterAlt_ne _ _ (by decide),
          clampIdea_getField_ne hck (by decide), clampIdeaCore_tagline hobj]
    · show (List.take 120 _).length ≤ 120
      rw [List.length_take]
      omega
  · intro secs hsecs
    rw [hik, getField_iterAlt_ne _ _ (by decide),
        clampIdea_getField_ne hck (by decide)] at hsecs
    cases horig : getField (ideas.getD k .vUndef) "sections" with
    | vArr l =>
      rw [clampIdeaCore_sections hobj horig] at hsecs
      injection hsecs with he
      subst he
      intro sec hsec
      obtain ⟨sec0, -, rfl⟩ := List.mem_map.mp (List.mem_of_mem_take hsec)
      refine ⟨strTake (sanStr (getField sec0 "body")) 550, rfl, ?_⟩
      show (List.take 550 _).length ≤ 550
      rw [List.length_take]
      omega
    | vUndef =>
      rw [clampIdeaCore_sections_not_arr (by rw [horig]; intro l h; cases h)] at hsecs
      rw [horig] at hsecs
      cases hsecs
    | vNull =>
      rw [clampIdeaCore_sections_not_arr (by rw [horig]; intro l h; cases h)] at hsecs
      rw [horig] at hsecs
      cases hsecs
    | vBool b =>
      rw [clampIdeaCore_sections_not_arr (by rw [horig]; intro l h; cases h)] at hsecs
      rw [horig] at hsecs
      cases hsecs
    | vNum q =>
      rw [clampIdeaCore_sections_not_arr (by rw [horig]; intro l h; cases h)] at hsecs
      rw [horig] at hsecs
      cases hsecs
    | vStr s =>
      rw [clampIdeaCore_sections_not_arr (by rw [horig]; intro l h; cases h)] at hsecs
      rw [horig] at hsecs
      cases hsecs
    | vObj gs =>
      rw [clampIdeaCore_sections_not_arr (by rw [horig]; intro l h; cases h)] at hsecs
      rw [horig] at hsecs
      cases hsecs

/-- A 70-character title. -/
def t70 : String := String.mk (List.replicate 70 'a')

/-- Generator output with two identical 70-character titles. -/
def c8cxGen : GenOut :=
  gen3 (.vObj [("title", .vStr t70)]) (.vObj [("title", .vStr t70)]) blankIdea

/-- Counterexample to C8 as stated: the duplicate 70-character title gets
the `" — Alt"` suffix after the slice-to-70, so the 200 response carries a
76-character title. -/
theorem c8_counterexample :
    (handler "POST" sampleBody c8cxGen).status = 200 ∧
    ∃ t, strField (ideaAt (handler "POST" sampleBody c8cxGen) 1) "title" = some t ∧
      70 < t.length ∧ t.length = 76 :=
  ⟨by rfl, t70 ++ " — Alt", by decide, by decide, by decide⟩

/-- Witness for C8. -/
theorem c8_witness :
    (∃ t, strField (ideaAt (handler "POST" sampleBody c6wGen) 0) "title" = some t ∧
      t.length ≤ 82) ∧
    (∃ tg, strField (ideaAt (handler "POST" sampleBody c6wGen) 0) "tagline" = some tg ∧
      tg.length ≤ 120) ∧
    (∀ secs : List JSVal,
      getField (ideaAt (handler "POST" sampleBody c6wGen) 0) "sections" = .vArr secs →
      ∀ sec ∈ secs, ∃ b, strField sec "body" = some b ∧ b.length ≤ 550) :=
  @c8_length_caps sampleBody c6wGen (handler "POST" sampleBody c6wGen) rfl (by rfl)
    (.vObj [("ideas", .vArr [.vObj [("title", .vStr ""),
      ("tagline", .vStr "Sell prints online.")], blankIdea, blankIdea])])
    [.vObj [("title", .vStr ""), ("tagline", .vStr "Sell prints online.")],
      blankIdea, blankIdea] rfl rfl 0 (by decide) (by decide)

/-! ### C7: the `" — Alt"` suffix under deduplication -/

/-- `n` copies of the `" — Alt"` suffix. -/
def altRep : Nat → String
  | 0 => ""
  | n + 1 => altRep n ++ " — Alt"

theorem jsToString_vStr (s : String) : jsToString (.vStr s) = s := rfl

theorem string_data_nil {s : String} : s.data = [] ↔ s = "" := by
  cases s with
  | mk l =>
    constructor
    · intro h
      rw [show l = [] from h]
    · intro h
      simpa using congrArg String.data h

/-- The lowered character list of `" — Alt"`. -/
theorem altChars : (" — Alt" : String).data.map asciiLower =
    [' ', '—', ' ', 'a', 'l', 't'] := by decide

theorem runsAux_append_alt :
    ∀ cs : List Char,
      runsAux (cs ++ [' ', '—', ' ', 'a', 'l', 't']) =
        ((runsAux cs).1, (runsAux cs).2 ++ [['a', 'l', 't']]) := by
  intro cs
  induction cs with
  | nil => decide
  | cons c cs ih =>
    show runsAux (c :: (cs ++ _)) = _
    rw [runsAux, ih]
    by_cases hw : isWordChar c = true
    · simp only [hw, if_true]
      rw [runsAux]
      simp only [hw, if_true]
    · simp only [hw, Bool.false_eq_true, if_false]
      rw [runsAux]
      simp only [hw, Bool.false_eq_true, if_false]
      by_cases he : (runsAux cs).1.isEmpty = true
      · simp [he]
      · simp [he]

theorem wordRuns_append_alt (cs : List Char) :
    wordRuns (cs ++ [' ', '—', ' ', 'a', 'l', 't']) = wordRuns cs ++ [['a', 'l', 't']] := by
  rw [wordRuns, wordRuns, runsAux_append_alt]
  by_cases he : (runsAux cs).1.isEmpty = true <;> simp [he]

theorem tokenFinset_append_alt (t : String) :
    tokenFinset (t ++ " — Alt") = tokenFinset t ∪ {"alt"} := by
  rw [tokenFinset, tokenFinset, String.data_append, List.map_append, altChars,
      wordRuns_append_alt, List.map_append, List.toFinset_append]
  rfl

theorem tokenFinset_altRep (t : String) :
    ∀ n : Nat, tokenFinset (t ++ altRep n) =
      if n = 0 then tokenFinset t else tokenFinset t ∪ {"alt"} := by
  intro n
  induction n with
  | zero => simp [altRep]
  | succ n ih =>
    have hassoc : t ++ altRep (n + 1) = (t ++ altRep n) ++ " — Alt" := by
      rw [altRep, String.append_assoc]
    rw [hassoc, tokenFinset_append_alt, ih]
    cases n with
    | zero => simp
    | succ m => simp [Finset.union_assoc]

theorem simArg_vStr (s : String) : simArg (.vStr s) = some s := by
  rw [simArg]
  by_cases hs : jsTruthy (JSVal.vStr s) = true
  · rw [if_pos hs]
  · rw [if_neg hs]
    have : s = "" := by
      by_cases h0 : s = ""
      · exact h0
      · exact absurd (by simp [jsTruthy, h0]) hs
    rw [this]

/-- Duplicated token-bearing titles remain over-threshold-similar no matter
how many `" — Alt"` suffixes either copy has accumulated. -/
theorem isTooSimilar_altRep {t : String} (h : (tokenFinset t).Nonempty) (m k : Nat) :
    isTooSimilar (t ++ altRep m) (t ++ altRep k) = true := by
  have hcard : 1 ≤ (tokenFinset t).card := Finset.Nonempty.card_pos h
  rw [isTooSimilar, tokenFinset_altRep, tokenFinset_altRep]
  by_cases hm : m = 0 <;> by_cases hk : k = 0
  · simp only [hm, hk, if_true, Finset.inter_self, min_self]
    simp only [decide_eq_true_eq]
    omega
  · simp only [hm, hk, if_true, if_false]
    rw [Finset.inter_comm, Finset.union_inter_cancel_left]
    have hle : (tokenFinset t).card ≤ (tokenFinset t ∪ {"alt"}).card :=
      Finset.card_le_card Finset.subset_union_left
    simp only [decide_eq_true_eq]
    omega
  · simp only [hm, hk, if_true, if_false]
    rw [Finset.union_inter_cancel_left]
    have hle : (tokenFinset t).card ≤ (tokenFinset t ∪ {"alt"}).card :=
      Finset.card_le_card Finset.subset_union_left
    simp only [decide_eq_true_eq]
    omega
  · simp only [hm, hk, if_false, Finset.inter_self]
    have : 1 ≤ (tokenFinset t ∪ {"alt"}).card :=
      le_trans hcard (Finset.card_le_card Finset.subset_union_left)
    simp only [decide_eq_true_eq]
    omega

theorem setTitleAlt_title {b : JSVal} (hobj : isVObj b = true) {tb : String}
    (ht : getField b "title" = .vStr tb) (hne : tb ≠ "") :
    getField (setTitleAlt b) "title" = .vStr (tb ++ " — Alt") := by
  simp only [setTitleAlt, ht]
  rw [getField_setField_self' hobj]
  have htr : jsTruthy (JSVal.vStr tb) = true := by simp [jsTruthy, hne]
  rw [if_pos htr, jsToString_vStr]

theorem append_ne_empty {t : String} (hne : t ≠ "") (x : String) : t ++ x ≠ "" := by
  intro h
  have hd := congrArg String.data h
  rw [String.data_append] at hd
  have : t.data = [] := by
    cases ht : t.data with
    | nil => rfl
    | cons a l =>
      rw [ht] at hd
      cases hd
  exact hne (string_data_nil.mp this)

theorem title_iterAlt_altRep :
    ∀ (n : Nat) {x : JSVal}, isVObj x = true →
      ∀ {t : String}, getField x "title" = .vStr t → t ≠ "" →
      getField (iterAlt n x) "title" = .vStr (t ++ altRep n) := by
  intro n
  induction n with
  | zero =>
    intro x hx t ht hne
    rw [iterAlt, ht]
    simp [altRep]
  | succ n ih =>
    intro x hx t ht hne
    show getField (setTitleAlt (iterAlt n x)) "title" = _
    rw [setTitleAlt_title (by rw [isVObj_iterAlt]; exact hx) (ih hx ht hne)
          (append_ne_empty hne _),
        String.append_assoc]
    rfl

theorem compareAt_set_of_similar {l : List JSVal} {i j : Nat} {ta tb : String}
    (hti : getField (l.getD i .vUndef) "title" = .vStr ta)
    (htj : getField (l.getD j .vUndef) "title" = .vStr tb)
    (hsim : isTooSimilar ta tb = true) :
    compareAt l i j = some (l.set j (setTitleAlt (l.getD j .vUndef))) := by
  unfold compareAt
  rw [getFieldT_eq hti (by intro hh; cases hh),
      getFieldT_eq htj (by intro hh; cases hh)]
  simp [simArg_vStr, hsim]

theorem append_altRep_ends (x : String) (c : Nat) :
    ∃ p, (x ++ " — Alt") ++ altRep c = p ++ " — Alt" := by
  cases c with
  | zero => exact ⟨x, by simp [altRep]⟩
  | succ n => exact ⟨(x ++ " — Alt") ++ altRep n, by rw [altRep, ← String.append_assoc]⟩

/-- The engine for C7: if the pair `(i, j)` (equal, token-bearing clamped
titles) occurs in the loop order, then whatever the surrounding iterations
do, the final `j`-th title ends in `" — Alt"`. -/
theorem fold_pair_suffix {clamped r : List JSVal} {ps₁ ps₂ : List (Nat × Nat)}
    {i j : Nat}
    (hfold : (ps₁ ++ (i, j) :: ps₂).foldlM
      (fun a ij => compareAt a ij.1 ij.2) clamped = some r)
    (hlen : j < clamped.length)
    (hiobj : isVObj (clamped.getD i .vUndef) = true)
    (hjobj : isVObj (clamped.getD j .vUndef) = true)
    {tk : String}
    (hti : getField (clamped.getD i .vUndef) "title" = .vStr tk)
    (htj : getField (clamped.getD j .vUndef) "title" = .vStr tk)
    (htok : (tokenFinset tk).Nonempty) :
    ∃ p, getField (r.getD j .vUndef) "title" = .vStr (p ++ " — Alt") := by
  have hne : tk ≠ "" := by
    intro h0
    rw [h0] at htok
    exact absurd htok (by decide)
  rw [List.foldlM_append] at hfold
  cases hm1 : (ps₁.foldlM (fun a ij => compareAt a ij.1 ij.2) clamped) with
  | none => rw [hm1] at hfold; simp at hfold
  | some m1 =>
  rw [hm1] at hfold
  have hfold2 : (((i, j) :: ps₂).foldlM
      (fun a ij => compareAt a ij.1 ij.2) m1) = some r := hfold
  rw [List.foldlM_cons] at hfold2
  obtain ⟨a1, -, hia⟩ := foldCA_getD ps₁ clamped m1 hm1 i
  obtain ⟨b1, -, hjb⟩ := foldCA_getD ps₁ clamped m1 hm1 j
  have hm1len : m1.length = clamped.length := foldCA_length ps₁ clamped m1 hm1
  have hobji1 : isVObj (m1.getD i .vUndef) = true := by
    rw [hia, isVObj_iterAlt]; exact hiobj
  have hobjj1 : isVObj (m1.getD j .vUndef) = true := by
    rw [hjb, isVObj_iterAlt]; exact hjobj
  have hti1 : getField (m1.getD i .vUndef) "title" = .vStr (tk ++ altRep a1) := by
    rw [hia, title_iterAlt_altRep a1 hiobj hti hne]
  have htj1 : getField (m1.getD j .vUndef) "title" = .vStr (tk ++ altRep b1) := by
    rw [hjb, title_iterAlt_altRep b1 hjobj htj hne]
  rw [compareAt_set_of_similar hti1 htj1 (isTooSimilar_altRep htok a1 b1)] at hfold2
  have hfold3 : ps₂.foldlM (fun a ij => compareAt a ij.1 ij.2)
      (m1.set j (setTitleAlt (m1.getD j .vUndef))) = some r := hfold2
  obtain ⟨c1, -, hjc⟩ := foldCA_getD ps₂ _ r hfold3 j
  have hm2j : (m1.set j (setTitleAlt (m1.getD j .vUndef))).getD j .vUndef =
      setTitleAlt (m1.getD j .vUndef) :=
    getD_set_eq (by omega) _
  have hm2title : getField (setTitleAlt (m1.getD j .vUndef)) "title" =
      .vStr ((tk ++ altRep b1) ++ " — Alt") :=
    setTitleAlt_title hobjj1 htj1 (append_ne_empty hne _)
  have hm2obj : isVObj (setTitleAlt (m1.getD j .vUndef)) = true := by
    rw [setTitleAlt, isVObj_setField]; exact hobjj1
  have hfinal : getField (r.getD j .vUndef) "title" =
      .vStr (((tk ++ altRep b1) ++ " — Alt") ++ altRep c1) := by
    rw [hjc, hm2j, title_iterAlt_altRep c1 hm2obj hm2title
      (append_ne_empty (append_ne_empty hne _) _)]
  obtain ⟨p, hp⟩ := append_altRep_ends (tk ++ altRep b1) c1
  exact ⟨p, by rw [hfinal, hp]⟩

/-- C7 (amended): on every 200 response, when two generator ideas `i < j`
carry the same title and its clamped form still has at least one word
token, the `j`-th response idea's title ends in the literal `" — Alt"`
suffix.  (The comparisons run on current — possibly already-suffixed —
titles, and the suffix does not guarantee distinctness: see the
counterexample.) -/
theorem c7_dedup_suffix {rb : JSVal} {gen : GenOut} {r : HttpResponse}
    (h : handler "POST" rb gen = r) (hs : r.status = 200)
    {data : JSVal} {ideas : List JSVal}
    (hparse : gen.parsed = some data) (hideas : getField data "ideas" = .vArr ideas)
    {i j : Nat} (hij : i < j) (hj : j < 3)
    {T : String}
    (hti : getField (ideas.getD i .vUndef) "title" = .vStr T)
    (htj : getField (ideas.getD j .vUndef) "title" = .vStr T)
    (htok : (tokenFinset (strTake (sanStr (.vStr T)) 70)).Nonempty) :
    ∃ p, strField (ideaAt r j) "title" = some (p ++ " — Alt") := by
  obtain ⟨data', ideas', clamped, finals, hp', hi', hlen', hclamp, hfin, -, hri⟩ :=
    handler200_spec h hs
  rw [hparse] at hp'
  injection hp' with hdd
  subst hdd
  rw [hideas] at hi'
  injection hi' with hii
  subst hii
  obtain ⟨hclen, hcpt⟩ := mapClamp_spec hclamp
  have hiobj : isVObj (ideas.getD i .vUndef) = true := by
    cases hv : ideas.getD i .vUndef <;> rw [hv] at hti <;>
      first
      | rfl
      | simp [getField] at hti
  have hjobj : isVObj (ideas.getD j .vUndef) = true := by
    cases hv : ideas.getD j .vUndef <;> rw [hv] at htj <;>
      first
      | rfl
      | simp [getField] at htj
  have hcki : clampIdea (ideas.getD i .vUndef) = some (clamped.getD i .vUndef) :=
    hcpt i (by omega)
  have hckj : clampIdea (ideas.getD j .vUndef) = some (clamped.getD j .vUndef) :=
    hcpt j (by omega)
  have htci : getField (clamped.getD i .vUndef) "title" =
      .vStr (strTake (sanStr (.vStr T)) 70) := by
    rw [clampIdea_getField_ne hcki (by decide), clampIdeaCore_title hiobj, hti]
  have htcj : getField (clamped.getD j .vUndef) "title" =
      .vStr (strTake (sanStr (.vStr T)) 70) := by
    rw [clampIdea_getField_ne hckj (by decide), clampIdeaCore_title hjobj, htj]
  have hciobj : isVObj (clamped.getD i .vUndef) = true := by
    rw [clampIdea_isVObj hcki]; exact hiobj
  have hcjobj : isVObj (clamped.getD j .vUndef) = true := by
    rw [clampIdea_isVObj hckj]; exact hjobj
  have hclen3 : clamped.length = 3 := by rw [hclen, hlen']
  have hfold : (pairIdx 3).foldlM (fun a ij => compareAt a ij.1 ij.2) clamped =
      some finals := by
    rw [ensureDistinct, hclen3] at hfin
    exact hfin
  have hp3 : pairIdx 3 = [(0, 1), (0, 2), (1, 2)] := by decide
  rw [hp3] at hfold
  have key : ∃ p, getField (finals.getD j .vUndef) "title" = .vStr (p ++ " — Alt") := by
    rcases (by omega : i = 0 ∧ j = 1 ∨ i = 0 ∧ j = 2 ∨ i = 1 ∧ j = 2) with
      ⟨rfl, rfl⟩ | ⟨rfl, rfl⟩ | ⟨rfl, rfl⟩
    · have hsplit : ([(0, 1), (0, 2), (1, 2)] : List (Nat × Nat)) =
          [] ++ (0, 1) :: [(0, 2), (1, 2)] := rfl
      rw [hsplit] at hfold
      exact fold_pair_suffix hfold (by omega) hciobj hcjobj htci htcj htok
    · have hsplit : ([(0, 1), (0, 2), (1, 2)] : List (Nat × Nat)) =
          [(0, 1)] ++ (0, 2) :: [(1, 2)] := rfl
      rw [hsplit] at hfold
      exact fold_pair_suffix hfold (by omega) hciobj hcjobj htci htcj htok
    · have hsplit : ([(0, 1), (0, 2), (1, 2)] : List (Nat × Nat)) =
          [(0, 1), (0, 2)] ++ (1, 2) :: [] := rfl
      rw [hsplit] at hfold
      exact fold_pair_suffix hfold (by omega) hciobj hcjobj htci htcj htok
  obtain ⟨p, hp⟩ := key
  exact ⟨p, by rw [strField, ideaAt, hri, hp]⟩

/-- Generator output for the C7 witness: two identical token-bearing
titles. -/
def c7wGen : GenOut := gen3 (.vObj [("title", .vStr "cool idea")])
  (.vObj [("title", .vStr "cool idea")]) (.vObj [("title", .vStr "zed")])

/-- Witness for C7. -/
theorem c7_witness :
    ∃ p, strField (ideaAt (handler "POST" sampleBody c7wGen) 1) "title" =
      some (p ++ " — Alt") :=
  @c7_dedup_suffix sampleBody c7wGen (handler "POST" sampleBody c7wGen) rfl (by rfl)
    (.vObj [("ideas", .vArr [.vObj [("title", .vStr "cool idea")],
      .vObj [("title", .vStr "cool idea")], .vObj [("title", .vStr "zed")]])])
    [.vObj [("title", .vStr "cool idea")], .vObj [("title", .vStr "cool idea")],
      .vObj [("title", .vStr "zed")]]
    rfl rfl 0 1 (by omega) (by omega) "cool idea" rfl rfl (by decide)

/-- Identical empty titles: the overlap ratio is `0`, nothing triggers. -/
def c7cxGenA : GenOut := gen3 (.vObj [("title", .vStr "")])
  (.vObj [("title", .vStr "")]) (.vObj [("title", .vStr "zed")])

/-- Identical token-bearing titles whose dedup results still collide: idea 1
gets the suffix via body similarity with idea 0, so the pair comparison
(1, 2) sees already-distinct titles yet suffixes idea 2 into the same
string. -/
def c7cxGenB : GenOut := gen3
  (.vObj [("title", .vStr "zzz"),
          ("sections", .vArr [.vObj [], .vObj [("body", .vStr "hello world foo")]])])
  (.vObj [("title", .vStr "a b"),
          ("sections", .vArr [.vObj [], .vObj [("body", .vStr "hello world foo")]])])
  (.vObj [("title", .vStr "a b"),
          ("sections", .vArr [.vObj [], .vObj [("body", .vStr "different stuff entirely")]])])

/-- Counterexample to C7 as stated: identical empty titles reach the 200
response unchanged and equal (no `" — Alt"` suffix, not distinct); and even
token-bearing identical titles can end up as two identical suffixed
strings. -/
theorem c7_counterexample :
    ((handler "POST" sampleBody c7cxGenA).status = 200 ∧
     strField (ideaAt (handler "POST" sampleBody c7cxGenA) 0) "title" = some "" ∧
     strField (ideaAt (handler "POST" sampleBody c7cxGenA) 1) "title" = some "") ∧
    ((handler "POST" sampleBody c7cxGenB).status = 200 ∧
     strField (ideaAt (handler "POST" sampleBody c7cxGenB) 1) "title" =
       some "a b — Alt" ∧
     strField (ideaAt (handler "POST" sampleBody c7cxGenB) 2) "title" =
       some "a b — Alt") :=
  ⟨⟨by rfl, by decide, by decide⟩, ⟨by rfl, by decide, by decide⟩⟩
